import Mathlib

set_option maxRecDepth 200000

/-!
# Verification of the wasmer-jni embedded WebAssembly interpreter core

This development shallowly embeds the interpreter core of the repository
(`src/rust/src/types/*.rs`: the packed instruction pool, the frame/label
machine, linear memory, and the opcode dispatcher) and proves properties of
the embedding corresponding to the specification's claims.

Modelling conventions:
* Rust machine integers are modelled as `Nat` (bit patterns) or `Int`
  (signed views), with explicit `% 2^32` / `% 2^64` wherever the source
  casts or wraps.  `u8` bytes read from linear memory are reduced `% 256`.
* Rust `Result<_, String>` errors are `RtErr.trap`; Rust panics (integer
  division by zero / overflow, overflow-checked shifts) are
  `RtErr.hostAbort` — a panic aborts the host instead of surfacing as a
  trap string, and the distinction matters for several claims.
* `&mut self` methods become values of `M α := Machine → Except RtErr α × Machine`:
  the state component is kept even when an error is returned, exactly as
  Rust keeps the mutations performed before an early `return Err`.
* The packed 64-bit descriptors (`FrameData`, `LabelData`, `Offset`) are
  modelled as structures; the pack/unpack accessor pairs of the source are
  inverse bijections for in-range fields, so the structure fields are the
  fields the source stores and reloads.  `InsBits` / `InsVec` stay packed
  `Nat`s with the source's mask/shift accessors because the pool stores
  them as raw words.
* IEEE-754 float *values* are abstracted by a `FloatOps` record of
  unspecified functions on 32/64-bit patterns; every dispatcher arm applies
  the source's exact bit-width coercions around those functions, which is
  all the claims below depend on.
-/

namespace WasmJni

/-- 2^32, the modulus of `u32` values. -/
def p32 : Nat := 4294967296

/-- 2^64, the modulus of `u64` values. -/
def p64 : Nat := 18446744073709551616

/-- 2^16, the modulus of `u16` values. -/
def p16 : Nat := 65536

/-- Read the low 32 bits of a word as a signed (two's-complement) `i32`,
the meaning of Rust's `x as i32` on a `u64`. -/
def toI32 (n : Nat) : Int :=
  let m := n % p32
  if m < 2147483648 then (m : Int) else (m : Int) - (p32 : Int)

/-- Read a 64-bit word as a signed `i64` (Rust's `x as i64`). -/
def toI64 (n : Nat) : Int :=
  let m := n % p64
  if m < 9223372036854775808 then (m : Int) else (m : Int) - (p64 : Int)

/-- Rust's `x as u64` on a signed value: the two's-complement bit pattern,
i.e. the representative of `x` modulo 2^64. -/
def intToU64 (x : Int) : Nat := (x % (p64 : Int)).toNat

/-- Rust's `x as u32` on a signed value. -/
def intToU32 (x : Int) : Nat := (x % (p32 : Int)).toNat

/-- Read the low 8 bits as a signed `i8` (Rust `x as i8`). -/
def toI8 (n : Nat) : Int :=
  let m := n % 256
  if m < 128 then (m : Int) else (m : Int) - 256

/-- Read the low 16 bits as a signed `i16` (Rust `x as i16`). -/
def toI16 (n : Nat) : Int :=
  let m := n % 65536
  if m < 32768 then (m : Int) else (m : Int) - 65536

/-- A runtime failure of the interpreter.  `trap` is a `Result::Err(String)`
returned to the caller; `hostAbort` is a Rust panic, which does not surface
as an error value but aborts the host. -/
inductive RtErr where
  | trap : String → RtErr
  | hostAbort : String → RtErr
deriving DecidableEq, Repr

/-- Rust `i32::div` (the `/` operator): truncating signed division; panics
on a zero divisor and on `i32::MIN / -1` in every build profile. -/
def rustDivI32 (a b : Int) : Except RtErr Int :=
  if b = 0 then .error (.hostAbort "attempt to divide by zero")
  else if a = -2147483648 ∧ b = -1 then
    .error (.hostAbort "attempt to divide with overflow")
  else .ok (Int.tdiv a b)

/-- Rust `i32::rem` (the `%` operator): truncated signed remainder; panics
on a zero divisor and on `i32::MIN % -1` in every build profile. -/
def rustRemI32 (a b : Int) : Except RtErr Int :=
  if b = 0 then .error (.hostAbort "attempt to calculate the remainder with a divisor of zero")
  else if a = -2147483648 ∧ b = -1 then
    .error (.hostAbort "attempt to calculate the remainder with overflow")
  else .ok (Int.tmod a b)

/-- Rust `i64::div`. -/
def rustDivI64 (a b : Int) : Except RtErr Int :=
  if b = 0 then .error (.hostAbort "attempt to divide by zero")
  else if a = -9223372036854775808 ∧ b = -1 then
    .error (.hostAbort "attempt to divide with overflow")
  else .ok (Int.tdiv a b)

/-- Rust `i64::rem`. -/
def rustRemI64 (a b : Int) : Except RtErr Int :=
  if b = 0 then .error (.hostAbort "attempt to calculate the remainder with a divisor of zero")
  else if a = -9223372036854775808 ∧ b = -1 then
    .error (.hostAbort "attempt to calculate the remainder with overflow")
  else .ok (Int.tmod a b)

/-- Rust unsigned division `u64::div` / `u32::div`: panics on zero divisor. -/
def rustDivU (a b : Nat) : Except RtErr Nat :=
  if b = 0 then .error (.hostAbort "attempt to divide by zero") else .ok (a / b)

/-- Rust unsigned remainder: panics on zero divisor. -/
def rustRemU (a b : Nat) : Except RtErr Nat :=
  if b = 0 then .error (.hostAbort "attempt to calculate the remainder with a divisor of zero")
  else .ok (a % b)

/-- Rust shift with an out-of-range count, parameterised over the build's
`overflow-checks` flag `oc`: a count `≥ w` panics when checks are on (the
debug/test profile) and is masked to the low `log2 w` bits when they are
off (the release profile).  The source shifts by the raw count without
masking, so both behaviours are reachable. -/
def rustShift (oc : Bool) (w : Nat) (v : Nat) (doShift : Nat → Except RtErr Nat) :
    Except RtErr Nat :=
  if v ≥ w then
    if oc then .error (.hostAbort "attempt to shift with overflow")
    else doShift (v % w)
  else doShift v

/-- `u32::shl` with the build-dependent overflow behaviour. -/
def rustShlU32 (oc : Bool) (a v : Nat) : Except RtErr Nat :=
  rustShift oc 32 v (fun k => .ok ((a <<< k) % p32))

/-- `u32::shr` (logical right shift). -/
def rustShrU32 (oc : Bool) (a v : Nat) : Except RtErr Nat :=
  rustShift oc 32 v (fun k => .ok ((a % p32) >>> k))

/-- `i32::shr` (arithmetic right shift on the signed view): floor division
by the corresponding power of two. -/
def rustShrI32 (oc : Bool) (a : Int) (v : Nat) : Except RtErr Int :=
  if v ≥ 32 then
    if oc then .error (.hostAbort "attempt to shift with overflow")
    else .ok (Int.fdiv a ((2 : Int) ^ (v % 32)))
  else .ok (Int.fdiv a ((2 : Int) ^ v))

/-- `i64::shr` (arithmetic right shift on the signed view). -/
def rustShrI64 (oc : Bool) (a : Int) (v : Nat) : Except RtErr Int :=
  if v ≥ 64 then
    if oc then .error (.hostAbort "attempt to shift with overflow")
    else .ok (Int.fdiv a ((2 : Int) ^ (v % 64)))
  else .ok (Int.fdiv a ((2 : Int) ^ v))

/-- `u64::shl`. -/
def rustShlU64 (oc : Bool) (a v : Nat) : Except RtErr Nat :=
  rustShift oc 64 v (fun k => .ok ((a <<< k) % p64))

/-- `u64::shr`. -/
def rustShrU64 (oc : Bool) (a v : Nat) : Except RtErr Nat :=
  rustShift oc 64 v (fun k => .ok ((a % p64) >>> k))

/-- `u32::rotate_left`: never panics, the count is reduced mod 32. -/
def rotl32 (a v : Nat) : Nat :=
  let k := v % 32
  ((a % p32) <<< k ||| (a % p32) >>> (32 - k)) % p32

/-- `u32::rotate_right`. -/
def rotr32 (a v : Nat) : Nat :=
  let k := v % 32
  ((a % p32) >>> k ||| (a % p32) <<< (32 - k)) % p32

/-- `u64::rotate_left`. -/
def rotl64 (a v : Nat) : Nat :=
  let k := v % 64
  ((a % p64) <<< k ||| (a % p64) >>> (64 - k)) % p64

/-- `u64::rotate_right`. -/
def rotr64 (a v : Nat) : Nat :=
  let k := v % 64
  ((a % p64) >>> k ||| (a % p64) <<< (64 - k)) % p64

/-- Count of trailing zero bits, bounded by the fuel (the bit width). -/
def ctzAux : Nat → Nat → Nat
  | _, 0 => 0
  | n, fuel + 1 => if n % 2 = 1 then 0 else ctzAux (n / 2) fuel + 1

/-- Number of bits of `n` (`0` for `0`). -/
def bitLen (n : Nat) : Nat := if n = 0 then 0 else Nat.log2 n + 1

/-- `u32::leading_zeros`. -/
def clz32 (a : Nat) : Nat := 32 - bitLen (a % p32)

/-- `u32::trailing_zeros`. -/
def ctz32 (a : Nat) : Nat := ctzAux (a % p32) 32

/-- Population count, bounded by fuel. -/
def popcntAux : Nat → Nat → Nat
  | _, 0 => 0
  | n, fuel + 1 => n % 2 + popcntAux (n / 2) fuel

/-- `u32::count_ones`. -/
def popcnt32 (a : Nat) : Nat := popcntAux (a % p32) 32

/-- `u64::leading_zeros`. -/
def clz64 (a : Nat) : Nat := 64 - bitLen (a % p64)

/-- `u64::trailing_zeros`. -/
def ctz64 (a : Nat) : Nat := ctzAux (a % p64) 64

/-- `u64::count_ones`. -/
def popcnt64 (a : Nat) : Nat := popcntAux (a % p64) 64

theorem ctzAux_le (n fuel : Nat) : ctzAux n fuel ≤ fuel := by
  induction fuel generalizing n with
  | zero => simp [ctzAux]
  | succ k ih =>
    simp only [ctzAux]
    split
    · exact Nat.zero_le _
    · exact Nat.succ_le_succ (ih _)

theorem popcntAux_le (n fuel : Nat) : popcntAux n fuel ≤ fuel := by
  induction fuel generalizing n with
  | zero => simp [popcntAux]
  | succ k ih =>
    simp only [popcntAux]
    have h1 : n % 2 ≤ 1 := Nat.le_of_lt_succ (Nat.mod_lt _ (by omega))
    have := ih (n / 2)
    omega

end WasmJni

namespace WasmJni

/-- WebAssembly MVP value types (`parity_wasm::elements::ValueType`). -/
inductive ValueType where
  | I32 | I64 | F32 | F64
deriving DecidableEq, Repr

/-- A packed instruction-pool slice: `{ size:32, offset:32 }` in one `u64`
(`ins_pool.rs`, `InsVec`).  All zeros is the null slice. -/
structure InsVec where
  bits : Nat
deriving DecidableEq, Repr

namespace InsVec

def isNull (v : InsVec) : Prop := v.bits = 0

instance : DecidablePred isNull := fun v => inferInstanceAs (Decidable (v.bits = 0))

def size (v : InsVec) : Nat := (v.bits >>> 32) &&& 4294967295

def offset (v : InsVec) : Nat := v.bits &&& 4294967295

def null : InsVec := ⟨0⟩

def mk' (offset size : Nat) : InsVec := ⟨(size <<< 32) ||| offset⟩

end InsVec

/-- A packed decoded instruction (`ins_pool.rs`, `InsBits`):
opcode in the low byte, block type in bits 8..16, operand size in bits
16..32, payload in the high 32 bits. -/
structure InsBits where
  bits : Nat
deriving DecidableEq, Repr

namespace InsBits

def opCode (i : InsBits) : Nat := i.bits &&& 255

def operandSize (i : InsBits) : Nat := (i.bits &&& 4294901760) >>> 16

def payload (i : InsBits) : Nat := (i.bits &&& 18446744069414584320) >>> 32

/-- `block_type`: bit 7 of the result-type byte set means "no result";
values 0..3 are the four value types.  (The source panics on a byte in
4..0x7f, which the decoder never produces; the model returns `none`.) -/
def blockType (i : InsBits) : Option ValueType :=
  let rt := (i.bits &&& 65280) >>> 8
  if rt &&& 128 ≠ 0 then none
  else if rt = 0 then some .I32
  else if rt = 1 then some .I64
  else if rt = 2 then some .F32
  else if rt = 3 then some .F64
  else none

/-- Build an instruction word carrying just an opcode and payload/operand
size, as the pool decoder does. -/
def make (op : Nat) (blockTypeByte : Nat) (opSize : Nat) (payld : Nat) : InsBits :=
  ⟨(op &&& 255) ||| ((blockTypeByte &&& 255) <<< 8) ||| ((opSize &&& 65535) <<< 16)
    ||| ((payld &&& 4294967295) <<< 32)⟩

end InsBits

/-- A WebAssembly function defined inside the module
(`instance.rs`, `WASMFunction`): its signature, its decoded body slice,
and the per-declaration counts of extra locals. -/
structure WASMFunction where
  params : List ValueType
  results : List ValueType
  body : InsVec
  localCounts : List Nat
deriving DecidableEq, Repr

/-- `WASMFunction::local_len`: total count of declared (non-parameter)
locals. -/
def WASMFunction.localLen (f : WASMFunction) : Nat := f.localCounts.sum

/-- `instance.rs`, `FunctionInstance`: either an imported host function or
a module-defined wasm function. -/
inductive FunctionInstance where
  | host (module field : String) (params results : List ValueType)
  | wasm (f : WASMFunction)
deriving DecidableEq, Repr

/-- The byte size of one linear-memory page. -/
def pageSize : Nat := 65536

/-- Linear memory (`memory.rs`, `Memory`): a byte vector plus the page
bookkeeping.  `data` entries are `u8` bytes. -/
structure Memory where
  data : List Nat
  maximum : Option Nat
  maxPages : Nat
  pages : Nat
deriving DecidableEq, Repr

namespace Memory

/-- Read a byte (`u8`, hence `% 256`) at an index. -/
def byteAt (m : Memory) (i : Nat) : Nat := m.data.getD i 0 % 256

/-- `dec_u16`: little-endian 2-byte decode. -/
def decU16 (m : Memory) (off : Nat) : Nat :=
  m.byteAt off ||| (m.byteAt (off + 1) <<< 8)

/-- `dec_u32`: little-endian 4-byte decode. -/
def decU32 (m : Memory) (off : Nat) : Nat :=
  m.byteAt off ||| (m.byteAt (off + 1) <<< 8) ||| (m.byteAt (off + 2) <<< 16)
    ||| (m.byteAt (off + 3) <<< 24)

/-- `dec_u64`: little-endian 8-byte decode. -/
def decU64 (m : Memory) (off : Nat) : Nat :=
  m.byteAt off ||| (m.byteAt (off + 1) <<< 8) ||| (m.byteAt (off + 2) <<< 16)
    ||| (m.byteAt (off + 3) <<< 24) ||| (m.byteAt (off + 4) <<< 32)
    ||| (m.byteAt (off + 5) <<< 40) ||| (m.byteAt (off + 6) <<< 48)
    ||| (m.byteAt (off + 7) <<< 56)

/-- `load_u8`: bounds check `off + 1 ≤ data.len()`, then read. -/
def loadU8 (m : Memory) (off : Nat) : Except RtErr Nat :=
  if off + 1 > m.data.length then .error (.trap "memory access overflow")
  else .ok (m.byteAt off)

/-- `load_u16`. -/
def loadU16 (m : Memory) (off : Nat) : Except RtErr Nat :=
  if off + 2 > m.data.length then .error (.trap "memory access overflow")
  else .ok (m.decU16 off)

/-- `load_u32`. -/
def loadU32 (m : Memory) (off : Nat) : Except RtErr Nat :=
  if off + 4 > m.data.length then .error (.trap "memory access overflow")
  else .ok (m.decU32 off)

/-- `load_u64`. -/
def loadU64 (m : Memory) (off : Nat) : Except RtErr Nat :=
  if off + 8 > m.data.length then .error (.trap "memory access overflow")
  else .ok (m.decU64 off)

/-- Write one byte (`x as u8` truncation). -/
def setByte (l : List Nat) (i v : Nat) : List Nat := l.set i (v % 256)

/-- `store_u8`. -/
def storeU8 (m : Memory) (off v : Nat) : Except RtErr Memory :=
  if off + 1 > m.data.length then .error (.trap "memory access overflow")
  else .ok { m with data := setByte m.data off v }

/-- `store_u16`: little-endian. -/
def storeU16 (m : Memory) (off v : Nat) : Except RtErr Memory :=
  if off + 2 > m.data.length then .error (.trap "memory access overflow")
  else .ok { m with data := setByte (setByte m.data off v) (off + 1) (v >>> 8) }

/-- `enc_u32`: write four little-endian bytes. -/
def encU32 (l : List Nat) (off v : Nat) : List Nat :=
  let l := setByte l off v
  let l := setByte l (off + 1) (v >>> 8)
  let l := setByte l (off + 2) (v >>> 16)
  setByte l (off + 3) (v >>> 24)

/-- `enc_u64`: write eight little-endian bytes. -/
def encU64 (l : List Nat) (off v : Nat) : List Nat :=
  let l := encU32 l off v
  encU32 l (off + 4) (v >>> 32)

/-- `store_u32`: little-endian. -/
def storeU32 (m : Memory) (off v : Nat) : Except RtErr Memory :=
  if off + 4 > m.data.length then .error (.trap "memory access overflow")
  else .ok { m with data := encU32 m.data off v }

/-- `store_u64`: little-endian. -/
def storeU64 (m : Memory) (off v : Nat) : Except RtErr Memory :=
  if off + 8 > m.data.length then .error (.trap "memory access overflow")
  else .ok { m with data := encU64 m.data off v }

/-- `Memory::grow` (`memory.rs` lines 179–202).  In source order: if a
declared `maximum` would be exceeded, return `(u32)-1` without growing;
if the interpreter's `max_pages` would be exceeded, return an `Err`
(a trap); otherwise allocate a zero-filled buffer of the new size, copy
the old bytes into its prefix, bump `pages` and return the previous page
count.  All the arithmetic is Rust `u32` arithmetic: with overflow checks
on (`oc = true`, debug/test profiles) the sum `pages + n` and the product
`(pages + n) * PAGE_SIZE` panic on 32-bit overflow — a host abort, and
the sum is evaluated (so panics) before either limit comparison; with
them off both wrap to 32 bits, and the wrapped sum is what every later
step sees.  The prefix copy `v[..data.len()]` panics in every profile
when the (possibly wrapped) new byte length is below the live data's
length.  (On the non-panicking paths the copy appends zero bytes, the
source's effect whenever `data.len() ≤ newLen`.) -/
def grow (oc : Bool) (m : Memory) (n : Nat) : Except RtErr (Nat × Memory) :=
  if oc ∧ m.pages + n ≥ p32 then .error (.hostAbort "attempt to add with overflow")
  else
    let sum := (m.pages + n) % p32
    let proceed : Except RtErr (Nat × Memory) :=
      if sum > m.maxPages then
        .error (.trap "memory overflow: cannot grow any more")
      else if oc ∧ sum * pageSize ≥ p32 then
        .error (.hostAbort "attempt to multiply with overflow")
      else
        let newLen := sum * pageSize % p32
        if newLen < m.data.length then
          .error (.hostAbort "range end index out of range for slice")
        else
          .ok (m.pages,
            { m with
              data := m.data ++ List.replicate (newLen - m.data.length) 0,
              pages := sum })
    match m.maximum with
    | none => proceed
    | some mx => if sum > mx then .ok (p32 - 1, m) else proceed

end Memory

/-- The instruction pool's word array (`ins_pool.rs`, `InsPool`), modelled
as a total map from indices to `u64` words (index 0 is the null word). -/
structure InsPool where
  data : Nat → Nat

namespace InsPool

/-- `ins_in_vec`: the `i`-th instruction word of a body slice. -/
def insInVec (p : InsPool) (vec : InsVec) (i : Nat) : InsBits := ⟨p.data (vec.offset + i)⟩

/-- `branch0`: the primary body slice of a structured instruction. -/
def branch0 (p : InsPool) (ins : InsBits) : InsVec := ⟨p.data ins.payload⟩

/-- `branch1`: the `else` body slice (null if absent). -/
def branch1 (p : InsPool) (ins : InsBits) : InsVec := ⟨p.data (ins.payload + 1)⟩

/-- `operand`: the `i`-th auxiliary word of an instruction. -/
def operand (p : InsPool) (ins : InsBits) (i : Nat) : Nat := p.data (ins.payload + i)

end InsPool

/-- The fields packed into a `FrameData` word (`frame_data.rs`): the
snapshot of a frame's scalar sizes and its function bits. -/
structure FrameData where
  labelSize : Nat
  localSize : Nat
  stackSize : Nat
  funcBits : Nat
deriving DecidableEq, Repr

/-- The fields packed into a `LabelData` word (`label_data.rs`), as
written by `Instance::save_label`: the stack height at entry, the saved
program counter, the arity flag and the loop flag. -/
structure LabelData where
  stackPc : Nat
  labelPc : Nat
  arity : Bool
  isLoop : Bool
deriving DecidableEq, Repr

/-- The fields packed into an `Offset` word (`offset.rs`): the label and
stack arena bases of a suspended frame. -/
structure OffsetData where
  labelBase : Nat
  stackBase : Nat
deriving DecidableEq, Repr

/-- The interpreter state (`instance.rs`, `struct Instance`): the
preallocated execution arrays (modelled as total maps), the live-frame
scalars, the limits, and the static module data. -/
structure Machine where
  count : Nat
  maxStacks : Nat
  maxFrames : Nat
  maxLabels : Nat
  stackData : Nat → Nat
  frameData : Nat → FrameData
  labelData : Nat → LabelData
  offsets : Nat → OffsetData
  memory : Memory
  labelSize : Nat
  stackSize : Nat
  localSize : Nat
  funcBits : Nat
  frameBody : InsVec
  labelBody : InsVec
  stackBase : Nat
  labelBase : Nat
  resultType : Option ValueType
  labelPc : Nat
  labels : Nat → InsVec
  arity : Bool
  isLoop : Bool
  stackPc : Nat
  functions : List FunctionInstance
  exports : List (String × WASMFunction)
  table : List (Option FunctionInstance)
  globals : List Nat
  globalMutable : List Bool
  pool : InsPool

/-- Point update of a total map. -/
def updFn {α : Type} (f : Nat → α) (i : Nat) (v : α) : Nat → α :=
  fun j => if j = i then v else f j

/-- `VecUtils::fill_from` — Modelled from the spec: the vector utility
(referenced from `instance.rs` but not present under `src/`) that fills
`len` slots starting at `start` with a constant, used to zero-initialise
local slots. -/
def fillRange (f : Nat → Nat) (start len v : Nat) : Nat → Nat :=
  fun j => if start ≤ j ∧ j < start + len then v else f j

/-- `VecUtils::self_copy` — Modelled from the spec: copy `len` slots from
index `src` to index `dst` inside the same vector, used to move call
arguments from the caller's operand stack into the callee's locals. -/
def selfCopy (f : Nat → Nat) (src dst len : Nat) : Nat → Nat :=
  fun j => if dst ≤ j ∧ j < dst + len then f (src + (j - dst)) else f j

/-- Write a list of words starting at `start` (the
`copy_from_slice` of explicit invocation arguments into local slots). -/
def writeList (f : Nat → Nat) (start : Nat) (l : List Nat) : Nat → Nat :=
  fun j => if start ≤ j ∧ j < start + l.length then l.getD (j - start) 0 else f j

/-- The interpreter monad: a state transformer that keeps the (possibly
partially mutated) state when an error is returned, exactly like a Rust
`&mut self` method returning `Result`. -/
def M (α : Type) : Type := Machine → Except RtErr α × Machine

namespace M

def pure' {α : Type} (a : α) : M α := fun s => (Except.ok a, s)

def bind' {α β : Type} (x : M α) (f : α → M β) : M β := fun s =>
  match x s with
  | (Except.ok a, s1) => f a s1
  | (Except.error e, s1) => (Except.error e, s1)

instance : Monad M where
  pure := pure'
  bind := bind'

def throwErr {α : Type} (e : RtErr) : M α := fun s => (Except.error e, s)

/-- Return a `Result::Err(msg)`. -/
def trapWith {α : Type} (msg : String) : M α := throwErr (RtErr.trap msg)

def get : M Machine := fun s => (Except.ok s, s)

def mod (f : Machine → Machine) : M Unit := fun s => (Except.ok (), f s)

/-- Evaluate a fallible computation and discard its `Result`, keeping all
state mutations — the semantics of a Rust statement that drops a
`Result` value (as `Instance::execute` does with `push_frame`). -/
def ignoreErr {α : Type} (x : M α) : M Unit := fun s => (Except.ok (), (x s).2)

/-- Lift a pure `Except` value. -/
def liftE {α : Type} (x : Except RtErr α) : M α := fun s => (x, s)

theorem bind_eq {α β : Type} (x : M α) (f : α → M β) (s : Machine) :
    (x >>= f) s =
      match x s with
      | (Except.ok a, s1) => f a s1
      | (Except.error e, s1) => (Except.error e, s1) := rfl

theorem pure_eq {α : Type} (a : α) (s : Machine) :
    (Pure.pure a : M α) s = (Except.ok a, s) := rfl

end M

end WasmJni

namespace WasmJni

namespace Machine

/-- Index one past the top of the live frame's operand stack. -/
def stackTop (s : Machine) : Nat := s.stackBase + s.localSize + s.stackSize

/-- The value in the top stack cell (meaningful when `stackSize ≠ 0`). -/
def topCell (s : Machine) : Nat := s.stackData (s.stackTop - 1)

/-- `Instance::save_frame`: serialise the live frame's scalars into
`frame_data[count-1]` and its bases into `offsets[count-1]`. -/
def saveFrame (s : Machine) : Machine :=
  { s with
    frameData := updFn s.frameData (s.count - 1)
      ⟨s.labelSize, s.localSize, s.stackSize, s.funcBits⟩,
    offsets := updFn s.offsets (s.count - 1) ⟨s.labelBase, s.stackBase⟩ }

/-- `Instance::save_label`: serialise the live label's registers into
`label_data[labelBase+labelSize-1]`.  (In `types/instance.rs` this does
not store `label_body` into the `labels` array.) -/
def saveLabel (s : Machine) : Machine :=
  { s with
    labelData := updFn s.labelData (s.labelBase + s.labelSize - 1)
      ⟨s.stackPc, s.labelPc, s.arity, s.isLoop⟩ }

/-- `Instance::load_label`: reload the label registers from
`label_data[labelBase+labelSize-1]`.  (In `types/instance.rs` this does
not reload `label_body` from the `labels` array.) -/
def loadLabel (s : Machine) : Machine :=
  let d := s.labelData (s.labelBase + s.labelSize - 1)
  { s with labelPc := d.labelPc, stackPc := d.stackPc, arity := d.arity, isLoop := d.isLoop }

/-- `Instance::clear_frame`. -/
def clearFrame (s : Machine) : Machine :=
  { s with labelSize := 0, stackSize := 0, funcBits := 0, localSize := 0 }

end Machine

/-- `Instance::push`: bounds-check against `max_stacks`, then write the
value at `stack_base + local_size + stack_size` and bump `stack_size`. -/
def push (value : Nat) : M Unit := fun s =>
  let index := s.stackBase + s.localSize + s.stackSize
  if index ≥ s.maxStacks then (.error (.trap "stack overflow"), s)
  else (.ok (), { s with stackData := updFn s.stackData index value,
                         stackSize := s.stackSize + 1 })

/-- `Instance::peek`: read the top cell without popping. -/
def peek : M Nat := fun s =>
  if s.stackSize = 0 then (.error (.trap "stack underflow"), s)
  else (.ok (s.stackData (s.stackBase + s.localSize + s.stackSize - 1)), s)

/-- `Instance::pop`. -/
def pop : M Nat := fun s =>
  if s.stackSize = 0 then (.error (.trap "stack underflow"), s)
  else (.ok (s.stackData (s.stackBase + s.localSize + s.stackSize - 1)),
        { s with stackSize := s.stackSize - 1 })

/-- `Instance::drop_unchecked`. -/
def dropUnchecked : M Unit := fun s => (.ok (), { s with stackSize := s.stackSize - 1 })

/-- `top` — Modelled from the spec: the dispatcher's helper (not present
under `src/`) returning a mutable view of the top stack cell; reading it
here.  The dispatcher's unary ops read the top cell and overwrite it in
place. -/
def readTop : M Nat := peek

/-- `top` (write half) — Modelled from the spec: overwrite the top stack
cell in place. -/
def writeTop (v : Nat) : M Unit := fun s =>
  (.ok (), { s with stackData := updFn s.stackData (s.stackTop - 1) v })

/-- `top_2` — Modelled from the spec: the dispatcher's helper (not present
under `src/`) yielding the value of the top cell (`v2`) and a mutable view
of the cell below it (`v1`); reading both here.  Requires two stack
values. -/
def readTop2 : M (Nat × Nat) := fun s =>
  if s.stackSize < 2 then (.error (.trap "stack underflow"), s)
  else (.ok (s.stackData (s.stackTop - 1), s.stackData (s.stackTop - 2)), s)

/-- `top_2` (write half) — Modelled from the spec: overwrite the
second-from-top cell (`*v1 = …`). -/
def writeSecond (v : Nat) : M Unit := fun s =>
  (.ok (), { s with stackData := updFn s.stackData (s.stackTop - 2) v })

/-- `Instance::set_local`. -/
def setLocal (index value : Nat) : M Unit := fun s =>
  if index ≥ s.localSize then (.error (.trap "local variable access overflow"), s)
  else (.ok (), { s with stackData := updFn s.stackData (s.stackBase + index) value })

/-- `Instance::get_local`. -/
def getLocal (index : Nat) : M Nat := fun s =>
  if index ≥ s.localSize then (.error (.trap "local variable access overflow"), s)
  else (.ok (s.stackData (s.stackBase + index)), s)

/-- The `push_fr!` macro: check the frame limit, save the current frame
and label, move the bases past the current frame's slots, and clear the
live-frame scalars. -/
def pushFr : M Unit := fun s =>
  if s.count = s.maxFrames then (.error (.trap "frame overflow"), s)
  else
    let s1 := if s.count ≠ 0 then s.saveFrame else s
    let s2 := if s1.labelSize ≠ 0 then s1.saveLabel else s1
    let nsb := if s2.count ≠ 0 then s2.stackBase + s2.localSize + s2.stackSize else 0
    let nlb := if s2.count ≠ 0 then s2.labelBase + s2.labelSize else 0
    (.ok (), Machine.clearFrame { s2 with stackBase := nsb, labelBase := nlb })

/-- `Instance::get_func_by_bits`: resolve 16-bit function bits either
through the table (top bit set) or directly; only a wasm function is
acceptable. -/
def getFuncByBits (s : Machine) (bits : Nat) : Except RtErr WASMFunction :=
  let idx := bits &&& 32767
  let o : Option FunctionInstance :=
    if bits &&& 32768 ≠ 0 then (s.table.get? idx).join
    else s.functions.get? idx
  match o with
  | none => .error (.trap "get_func_byt_bits: function index overflow")
  | some (.wasm f) => .ok f
  | some (.host _ _ _ _) => .error (.trap "expect wasm function, while host function found")

/-- `Instance::push_args`: move the top `params` cells of the caller's
operand stack into the callee's local slots and zero the rest. -/
def pushArgs (params : Nat) : M Unit := fun s =>
  let frame := s.count - 1 - 1
  let data := s.frameData frame
  let off := s.offsets frame
  if data.stackSize < params then (.error (.trap "push_args: stack underflow"), s)
  else
    let top := off.stackBase + data.localSize + data.stackSize
    let fd : FrameData := ⟨data.labelSize, data.localSize, data.stackSize - params, data.funcBits⟩
    let s := { s with frameData := updFn s.frameData frame fd }
    let sd := selfCopy (fillRange s.stackData s.stackBase s.localSize 0) (top - params) s.stackBase params
    (.ok (), { s with stackData := sd })

/-- `Instance::push_frame` (`instance.rs` lines 336–371): run `push_fr!`,
validate the local count, install the callee's result type, local count
and body, bump the frame counter, then marshal arguments — from the
caller's stack when `args` is `none`, verbatim (with zero-filled locals)
when explicit arguments are given. -/
def pushFrame (func : WASMFunction) (args : Option (List Nat)) : M Unit := do
  pushFr
  let localLen := func.localLen + func.params.length
  if localLen > 65535 then M.trapWith "push frame: function require too much locals" else
  M.mod (fun s => { s with resultType := func.results.head?, localSize := localLen,
                           frameBody := func.body, count := s.count + 1 })
  match args with
  | none => do
      let s ← M.get
      if s.count - 1 = 0 then M.trapWith "unexpected empty frame"
      else pushArgs func.params.length
  | some argv =>
      M.mod (fun s =>
        let sd := writeList (fillRange s.stackData s.stackBase localLen 0) s.stackBase argv
        { s with stackData := sd })

/-- `Instance::pop_frame`: decrement the counter; when frames remain,
reload the caller's scalars, bases, body (through its function bits) and,
if it had a label, the label registers. -/
def popFrame : M Unit := fun s =>
  let s := { s with count := s.count - 1 }
  if s.count = 0 then (.ok (), s)
  else
    let prev := s.frameData (s.count - 1)
    let s := { s with stackSize := prev.stackSize, localSize := prev.localSize,
                      labelSize := prev.labelSize, funcBits := prev.funcBits }
    let po := s.offsets (s.count - 1)
    let s := { s with stackBase := po.stackBase, labelBase := po.labelBase }
    match getFuncByBits s s.funcBits with
    | .error e => (.error e, s)
    | .ok fn =>
      let s := { s with frameBody := fn.body, resultType := fn.results.head? }
      (.ok (), if s.labelSize ≠ 0 then s.loadLabel else s)

/-- `Instance::ret`: read the result under the frame's result type,
narrowing `i32`/`f32` results to their low 32 bits, then pop the frame. -/
def ret : M (Option Nat) := do
  let s ← M.get
  match s.resultType with
  | none => do
      popFrame
      pure none
  | some t => do
      let res ← pop
      let res := match t with
        | .F32 | .I32 => res % p32
        | _ => res
      popFrame
      pure (some res)

/-- `Instance::push_label` (`instance.rs` lines 518–541): save the current
label (if any), install the new label registers, then check the label
limit and bump `label_size`.  Note the registers are overwritten before
the limit check. -/
def pushLabel (arity : Bool) (body : InsVec) (isLoop : Bool) : M Unit := fun s =>
  let s := if s.labelSize ≠ 0 then s.saveLabel else s
  let s := { s with arity := arity, isLoop := isLoop, stackPc := s.stackSize,
                    labelBody := body, labelPc := 0 }
  if s.labelBase + s.labelSize = s.maxLabels then
    (.error (.trap "push label failed: label size overflow"), s)
  else (.ok (), { s with labelSize := s.labelSize + 1 })

/-- `Instance::pop_label`. -/
def popLabel : M Unit := fun s =>
  if s.labelSize = 0 then (.error (.trap "pop label failed: label underflow"), s)
  else
    let s := { s with labelSize := s.labelSize - 1 }
    (.ok (), if s.labelSize ≠ 0 then s.loadLabel else s)

/-- `Instance::branch` (`instance.rs` lines 174–210): compute the target
label index `labelSize - 1 - l`, reload the target's registers (and its
body from the `labels` array) when `l ≠ 0`, pop the result value when the
target has arity, truncate the stack to the target's `stack_pc`, re-push
the value when the target has arity, then re-enter the target with
`pc := 0` for a loop and `pc := body.size` otherwise. -/
def branch (l : Nat) : M Unit := fun s0 =>
  if s0.labelSize = 0 ∨ s0.labelSize - 1 < l then
    (.error (.trap "branch failed: label underflow"), s0)
  else
    let s1 := { s0 with labelSize := s0.labelSize - 1 - l }
    let s2 := if l ≠ 0 then
        let p := s1.labelBase + s1.labelSize
        let d := s1.labelData p
        { s1 with isLoop := d.isLoop, labelBody := s1.labels p, arity := d.arity,
                  stackPc := d.stackPc }
      else s1
    match (if s2.arity then pop s2 else (.ok 0, s2)) with
    | (.error e, sE) => (.error e, sE)
    | (.ok v, s3) =>
      let s4 := { s3 with stackSize := s3.stackPc }
      match (if s3.arity then push v s4 else (.ok (), s4)) with
      | (.error e, sE) => (.error e, sE)
      | (.ok _, s5) =>
        if s5.labelBase + s5.labelSize = s5.maxLabels then
          (.error (.trap "branch failed: label overflow"), s5)
        else
          (.ok (), { s5 with labelSize := s5.labelSize + 1,
                             labelPc := if s5.isLoop then 0 else s5.labelBody.size })

end WasmJni

namespace WasmJni

/-- Abstraction of the host's IEEE-754 arithmetic: each field maps an
opcode and operand bit pattern(s) to a result bit pattern (reduced to the
result width at each use site, as the source's `to_bits`/`as` chains do).
The dispatcher's stack discipline and bit-width handling — all the claims
below need — are independent of these functions. -/
structure FloatOps where
  f32Unop : Nat → Nat → Nat
  f64Unop : Nat → Nat → Nat
  f32Binop : Nat → Nat → Nat → Nat
  f64Binop : Nat → Nat → Nat → Nat
  f32Cmp : Nat → Nat → Nat → Bool
  f64Cmp : Nat → Nat → Nat → Bool
  truncOp : Nat → Nat → Nat
  convertOp : Nat → Nat → Nat

/-- A `FloatOps` instantiation mapping everything to zero, used only to
instantiate witnesses whose programs contain no float instructions. -/
def zeroFloatOps : FloatOps :=
  ⟨fun _ _ => 0, fun _ _ => 0, fun _ _ _ => 0, fun _ _ _ => 0,
   fun _ _ _ => false, fun _ _ _ => false, fun _ _ => 0, fun _ _ => 0⟩

/-- The state after a successful binary-operator arm: the cell below the
top (`v1`) overwritten, the stack popped once (`drop_unchecked`). -/
def afterBin (s : Machine) (v : Nat) : Machine :=
  { s with stackData := updFn s.stackData (s.stackTop - 2) v,
           stackSize := s.stackSize - 1 }

/-- The state after a successful unary-operator arm: the top cell
overwritten in place. -/
def afterUnop (s : Machine) (v : Nat) : Machine :=
  { s with stackData := updFn s.stackData (s.stackTop - 1) v }

/-- The common effect of the source's binary-operator macros
(`bin_cast!`, `bin!`, `bin_cmp…`): read `v2` (top) and `v1` (below) via
the modelled `top_2` (its underflow check first), combine them, write the
result over `v1` and `drop_unchecked` — or propagate the combiner's
failure (a Rust panic inside the arithmetic) with no mutation, as the
in-place `*v1 = …` assignment never happens then. -/
def binWith (g : Nat → Nat → Except RtErr Nat) : M Unit := fun s =>
  if s.stackSize < 2 then (.error (.trap "stack underflow"), s)
  else
    match g (s.stackData (s.stackTop - 2)) (s.stackData (s.stackTop - 1)) with
    | .error e => (.error e, s)
    | .ok c => (.ok (), afterBin s c)

/-- The common effect of the source's unary-operator macros (`op_u32!`,
`op_u64!`, `op_f32!`, `op_f64!`, `trunc_as!` and the inline conversion
arms): read the top cell through the modelled `top` and overwrite it. -/
def unopWith (g : Nat → Nat) : M Unit := fun s =>
  if s.stackSize = 0 then (.error (.trap "stack underflow"), s)
  else (.ok (), afterUnop s (g (s.stackData (s.stackTop - 1))))

/-- `bin_cast!(self, u32, op)`: combine the low 32 bits of both cells;
the `u32` result is written back zero-extended by `as u64`. -/
def binCastU32 (f : Nat → Nat → Except RtErr Nat) : M Unit :=
  binWith (fun v1 v2 => (f (v1 % p32) (v2 % p32)).map (fun c => c % p32))

/-- `bin_cast!(self, i32, op)`: combine the signed views of the low 32
bits; the `i32` result is written back with `as u64` *sign extension*. -/
def binCastI32 (f : Int → Int → Except RtErr Int) : M Unit :=
  binWith (fun v1 v2 => (f (toI32 v1) (toI32 v2)).map intToU64)

/-- `bin_cast!(self, i64, op)`. -/
def binCastI64 (f : Int → Int → Except RtErr Int) : M Unit :=
  binWith (fun v1 v2 => (f (toI64 v1) (toI64 v2)).map intToU64)

/-- `bin!(self, op)`: combine the raw 64-bit values. -/
def binU64 (f : Nat → Nat → Except RtErr Nat) : M Unit :=
  binWith (fun v1 v2 => (f v1 v2).map (fun c => c % p64))

/-- The comparison macros (`bin_cmp…`): write 1 or 0 over `v1`. -/
def binCmpBool (p : Nat → Nat → Bool) : M Unit :=
  binWith (fun v1 v2 => .ok (if p v1 v2 then 1 else 0))

/-- `bin_cast_2!(self, i32, u32, shr)` — `i32.shr_s`: arithmetic shift of
the signed low 32 bits by the low 32 bits of the count, written back with
`as u64` sign extension. -/
def shrS32 (oc : Bool) : M Unit :=
  binWith (fun v1 v2 => (rustShrI32 oc (toI32 v1) (v2 % p32)).map intToU64)

/-- `bin_cast_2!(self, i64, u64, shr)` — `i64.shr_s`. -/
def shrS64 (oc : Bool) : M Unit :=
  binWith (fun v1 v2 => (rustShrI64 oc (toI64 v1) v2).map intToU64)

/-- `op_u32!`: overwrite the top cell with `f` of its low 32 bits
(`as u64` of a `u32` result). -/
def unopU32 (f : Nat → Nat) : M Unit := unopWith (fun t => f (t % p32) % p32)

/-- `op_u64!`. -/
def unopU64 (f : Nat → Nat) : M Unit := unopWith (fun t => f t % p64)

/-- `op_f32!` via the abstract float semantics (result is a `u32` bit
pattern widened by `as u64`). -/
def unopF32 (F : FloatOps) (op : Nat) : M Unit :=
  unopWith (fun t => F.f32Unop op (t % p32) % p32)

/-- `op_f64!`. -/
def unopF64 (F : FloatOps) (op : Nat) : M Unit :=
  unopWith (fun t => F.f64Unop op t % p64)

/-- `bin_f32!`. -/
def binF32 (F : FloatOps) (op : Nat) : M Unit :=
  binWith (fun v1 v2 => .ok (F.f32Binop op (v1 % p32) (v2 % p32) % p32))

/-- `bin_f64!`. -/
def binF64 (F : FloatOps) (op : Nat) : M Unit :=
  binWith (fun v1 v2 => .ok (F.f64Binop op v1 v2 % p64))

/-- `bin_cmp_f32!`. -/
def binCmpF32 (F : FloatOps) (op : Nat) : M Unit :=
  binCmpBool (fun v1 v2 => F.f32Cmp op (v1 % p32) (v2 % p32))

/-- `bin_cmp_f64!`. -/
def binCmpF64 (F : FloatOps) (op : Nat) : M Unit :=
  binCmpBool (fun v1 v2 => F.f64Cmp op v1 v2)

/-- `trunc_as!` with a 32-bit integer target (`… as i32/u32 as u32 as u64`). -/
def truncTo32 (F : FloatOps) (op : Nat) : M Unit :=
  unopWith (fun t => F.truncOp op t % p32)

/-- `trunc_as!` with a 64-bit integer target. -/
def truncTo64 (F : FloatOps) (op : Nat) : M Unit :=
  unopWith (fun t => F.truncOp op t % p64)

/-- A conversion producing an `f32` bit pattern (`to_bits() as u64`). -/
def convTo32 (F : FloatOps) (op : Nat) : M Unit :=
  unopWith (fun t => F.convertOp op t % p32)

/-- A conversion producing an `f64` bit pattern. -/
def convTo64 (F : FloatOps) (op : Nat) : M Unit :=
  unopWith (fun t => F.convertOp op t % p64)

/-- `i32.wrap_i64`: keep the low 32 bits. -/
def wrapI64 : M Unit := unopWith (fun t => t % p32)

/-- `i64.extend_i32_s`: `as u32 as i32 as i64 as u64`. -/
def extendSI32 : M Unit := unopWith (fun t => intToU64 (toI32 t))


/-- `mem_off!`: pop the dynamic address, add the static offset (a `u64`
addition), trap if the effective address exceeds `i32::MAX`. -/
def memOff (ins : InsBits) : M Nat := do
  let v ← pop
  let l := (v + ins.payload) % p64
  if l > 2147483647 then M.trapWith "memory access overflow l > i32::MAX"
  else pure l

def memLoadU8 (off : Nat) : M Nat := fun s => (s.memory.loadU8 off, s)
def memLoadU16 (off : Nat) : M Nat := fun s => (s.memory.loadU16 off, s)
def memLoadU32 (off : Nat) : M Nat := fun s => (s.memory.loadU32 off, s)
def memLoadU64 (off : Nat) : M Nat := fun s => (s.memory.loadU64 off, s)

def memStoreU8 (off v : Nat) : M Unit := fun s =>
  match s.memory.storeU8 off v with
  | .error e => (.error e, s)
  | .ok m => (.ok (), { s with memory := m })

def memStoreU16 (off v : Nat) : M Unit := fun s =>
  match s.memory.storeU16 off v with
  | .error e => (.error e, s)
  | .ok m => (.ok (), { s with memory := m })

def memStoreU32 (off v : Nat) : M Unit := fun s =>
  match s.memory.storeU32 off v with
  | .error e => (.error e, s)
  | .ok m => (.ok (), { s with memory := m })

def memStoreU64 (off v : Nat) : M Unit := fun s =>
  match s.memory.storeU64 off v with
  | .error e => (.error e, s)
  | .ok m => (.ok (), { s with memory := m })

/-- `memory.grow` at the machine level. -/
def memGrow (oc : Bool) (n : Nat) : M Nat := fun s =>
  match s.memory.grow oc n with
  | .error e => (.error e, s)
  | .ok (r, m) => (.ok r, { s with memory := m })

/-- `memory.size`. -/
def memPages : M Nat := fun s => (.ok s.memory.pages, s)

def getGlobalM (i : Nat) : M Nat := fun s =>
  match s.globals.get? i with
  | none => (.error (.trap "access global overflow"), s)
  | some v => (.ok v, s)

def globalMutableAt (i : Nat) : M Bool := fun s =>
  match s.globalMutable.get? i with
  | none => (.error (.trap "access global overflow"), s)
  | some b => (.ok b, s)

def setGlobalM (i : Nat) : M Unit := do
  let mu ← globalMutableAt i
  if !mu then M.trapWith "modify global failed: immutable" else do
  let v ← pop
  M.mod (fun s => { s with globals := s.globals.set i v })

/-- `FuncBits::normal` — Modelled from the spec: a direct function index
(`{isTable:0, index}`), as built by the `call` arm (`n as u16`). -/
def funcBitsNormal (n : Nat) : Nat := n % p16

/-- `FuncBits::table` — Modelled from the spec: a table lookup
(`{isTable:1, index}`), as built by the `call_indirect` arm
(`index as u16`). -/
def funcBitsTable (n : Nat) : Nat := 32768 ||| (n % p16)

/-- `push_frame` over `FuncBits` — Modelled from the spec: the overload
of `Instance::push_frame` called by the dispatcher's `call` /
`call_indirect` arms (not present under `src/`): resolve the bits to a
wasm function (trapping on a hole or a host function), push its frame
with arguments marshalled from the caller's stack, and record the bits as
the live frame's `func_bits` so returns can restore the caller's body. -/
def pushFrameBits (bits : Nat) : M Unit := do
  let s ← M.get
  let f ← M.liftE (getFuncByBits s bits)
  pushFrame f none
  M.mod (fun s' => { s' with funcBits := bits })

/-- `Runnable::invoke` (`executable.rs` lines 228–790): the opcode
dispatcher, one arm per MVP opcode, in source order.  The recursive
`self.run()` of the `call` / `call_indirect` arms is abstracted as the
`runner` argument; `invokeIns` below ties the knot exactly as the source
does. -/
def invokeOp (F : FloatOps) (oc : Bool) (runner : M (Option Nat)) (ins : InsBits) : M Unit :=
  match ins.opCode with
  -- nop and the bit-level no-ops
  | 0x01 | 0xbc | 0xbd | 0xad | 0xbe | 0xbf => pure ()
  | 0x00 => M.trapWith "wasm: unreachable()"
  | 0x02 => do
      let s ← M.get
      pushLabel ins.blockType.isSome (s.pool.branch0 ins) false
  | 0x03 => do
      let s ← M.get
      pushLabel false (s.pool.branch0 ins) true
  | 0x04 => do
      let arity := ins.blockType.isSome
      let c ← pop
      if c ≠ 0 then do
        let s ← M.get
        pushLabel arity (s.pool.branch0 ins) false
      else do
        let s ← M.get
        let elseBranch := s.pool.branch1 ins
        if ¬ elseBranch.isNull then pushLabel arity elseBranch false
        else pure ()
  | 0x0c => branch ins.payload
  | 0x0d => do
      let c ← pop
      if c ≠ 0 then branch ins.payload else pure ()
  | 0x0e => do
      let sz := ins.operandSize
      let i ← peek
      let i := i % p32
      if sz = 0 then M.trapWith "invalid empty br table data"
      else do
        let s ← M.get
        let n := if i < sz - 1 then s.pool.operand ins i else s.pool.operand ins (sz - 1)
        dropUnchecked
        branch (n % p32)
  | 0x1a => do
      let _ ← pop
      pure ()
  | 0x10 => do
      pushFrameBits (funcBitsNormal ins.payload)
      let s ← M.get
      let arity := s.resultType.isSome
      let res ← runner
      if arity then push (res.getD 0) else pure ()
  | 0x11 => do
      let index ← pop
      pushFrameBits (funcBitsTable index)
      let s ← M.get
      let arity := s.resultType.isSome
      let r ← runner
      if arity then push (r.getD 0) else pure ()
  | 0x1b => do
      let c ← pop
      let val2 ← pop
      let val1 ← pop
      if c ≠ 0 then push val1 else push val2
  | 0x20 => do
      let loc ← getLocal ins.payload
      push loc
  | 0x21 => do
      let v ← pop
      setLocal ins.payload v
  | 0x22 => do
      let v ← pop
      push v
      push v
      let v1 ← pop
      setLocal ins.payload v1
  | 0x23 => do
      let v ← getGlobalM ins.payload
      push v
  | 0x24 => setGlobalM ins.payload
  | 0x28 | 0x35 | 0x2a => do
      let off ← memOff ins
      let loaded ← memLoadU32 off
      push loaded
  | 0x29 | 0x2b => do
      let off ← memOff ins
      let v ← memLoadU64 off
      push v
  | 0x2c => do
      let off ← memOff ins
      let v ← memLoadU8 off
      push (intToU32 (toI8 v) % p32)
  | 0x30 => do
      let off ← memOff ins
      let v ← memLoadU8 off
      push (intToU64 (toI8 v))
  | 0x2d | 0x31 => do
      let off ← memOff ins
      let v ← memLoadU8 off
      push v
  | 0x2e => do
      let off ← memOff ins
      let v ← memLoadU16 off
      push (intToU32 (toI16 v) % p32)
  | 0x32 => do
      let off ← memOff ins
      let v ← memLoadU16 off
      push (intToU64 (toI16 v))
  | 0x2f | 0x33 => do
      let off ← memOff ins
      let v ← memLoadU16 off
      push v
  | 0x34 => do
      let off ← memOff ins
      let v ← memLoadU32 off
      push (intToU64 (toI32 v))
  | 0x3a | 0x3c => do
      let v ← pop
      let off ← memOff ins
      memStoreU8 off (v % 256)
  | 0x3b | 0x3d => do
      let v ← pop
      let off ← memOff ins
      memStoreU16 off (v % p16)
  | 0x36 | 0x3e | 0x38 => do
      let v ← pop
      let off ← memOff ins
      memStoreU32 off (v % p32)
  | 0x37 | 0x39 => do
      let v ← pop
      let off ← memOff ins
      memStoreU64 off v
  | 0x3f => do
      let p ← memPages
      push p
  | 0x40 => do
      let n ← pop
      let r ← memGrow oc (n % p32)
      push r
  | 0x41 | 0x43 => push (ins.payload % p32)
  | 0x42 | 0x44 => do
      let s ← M.get
      push (s.pool.operand ins 0)
  | 0x67 => unopU32 clz32
  | 0x68 => unopU32 ctz32
  | 0x69 => unopU32 popcnt32
  | 0x6a => binCastU32 (fun a b => .ok ((a + b) % p32))
  | 0x6c => binCastU32 (fun a b => .ok ((a * b) % p32))
  | 0x6d => binCastI32 rustDivI32
  | 0x6e => binCastU32 rustDivU
  | 0x6f => binCastI32 rustRemI32
  | 0x70 => binCastU32 rustRemU
  | 0x6b => binCastU32 (fun a b => .ok ((a + (p32 - b % p32)) % p32))
  | 0x71 => binCastU32 (fun a b => .ok (a &&& b))
  | 0x72 => binCastU32 (fun a b => .ok (a ||| b))
  | 0x73 => binCastU32 (fun a b => .ok (a ^^^ b))
  | 0x74 => binCastU32 (rustShlU32 oc)
  | 0x76 => binCastU32 (rustShrU32 oc)
  | 0x75 => shrS32 oc
  | 0x77 => binCastU32 (fun a b => .ok (rotl32 a b))
  | 0x78 => binCastU32 (fun a b => .ok (rotr32 a b))
  | 0x4c => binCmpBool (fun a b => toI32 a ≤ toI32 b)
  | 0x4d => binCmpBool (fun a b => a % p32 ≤ b % p32)
  | 0x48 => binCmpBool (fun a b => toI32 a < toI32 b)
  | 0x49 => binCmpBool (fun a b => a % p32 < b % p32)
  | 0x4a => binCmpBool (fun a b => toI32 a > toI32 b)
  | 0x4b => binCmpBool (fun a b => a % p32 > b % p32)
  | 0x4e => binCmpBool (fun a b => toI32 a ≥ toI32 b)
  | 0x4f => binCmpBool (fun a b => a % p32 ≥ b % p32)
  | 0x45 => unopU32 (fun a => if a = 0 then 1 else 0)
  | 0x46 => binCmpBool (fun a b => a % p32 = b % p32)
  | 0x47 => binCmpBool (fun a b => a % p32 ≠ b % p32)
  | 0x79 => unopU64 clz64
  | 0x7a => unopU64 ctz64
  | 0x7b => unopU64 popcnt64
  | 0x7c => binU64 (fun a b => .ok ((a + b) % p64))
  | 0x7d => binU64 (fun a b => .ok ((a + (p64 - b % p64)) % p64))
  | 0x7e => binU64 (fun a b => .ok ((a * b) % p64))
  | 0x7f => binCastI64 rustDivI64
  | 0x80 => binU64 rustDivU
  | 0x81 => binCastI64 rustRemI64
  | 0x82 => binU64 rustRemU
  | 0x83 => binU64 (fun a b => .ok (a &&& b))
  | 0x84 => binU64 (fun a b => .ok (a ||| b))
  | 0x85 => binU64 (fun a b => .ok (a ^^^ b))
  | 0x86 => binU64 (rustShlU64 oc)
  | 0x87 => shrS64 oc
  | 0x88 => binU64 (rustShrU64 oc)
  | 0x89 => binU64 (fun a b => .ok (rotl64 a (b % p32)))
  | 0x8a => binU64 (fun a b => .ok (rotr64 a (b % p32)))
  | 0x51 => binCmpBool (fun a b => a = b)
  | 0x50 => unopU64 (fun a => if a = 0 then 1 else 0)
  | 0x52 => binCmpBool (fun a b => a ≠ b)
  | 0x53 => binCmpBool (fun a b => toI64 a < toI64 b)
  | 0x54 => binCmpBool (fun a b => a < b)
  | 0x55 => binCmpBool (fun a b => toI64 a > toI64 b)
  | 0x56 => binCmpBool (fun a b => a > b)
  | 0x58 => binCmpBool (fun a b => a ≤ b)
  | 0x57 => binCmpBool (fun a b => toI64 a ≤ toI64 b)
  | 0x59 => binCmpBool (fun a b => toI64 a ≥ toI64 b)
  | 0x5a => binCmpBool (fun a b => a ≥ b)
  | 0xa7 => wrapI64
  | 0x8b | 0x8c | 0x8d | 0x8e | 0x8f | 0x90 | 0x91 => unopF32 F ins.opCode
  | 0x92 | 0x93 | 0x94 | 0x95 | 0x96 | 0x97 | 0x98 => binF32 F ins.opCode
  | 0x5b | 0x5c | 0x5d | 0x5e | 0x5f | 0x60 => binCmpF32 F ins.opCode
  | 0x99 | 0x9a | 0x9b | 0x9c | 0x9d | 0x9e | 0x9f => unopF64 F ins.opCode
  | 0xa0 | 0xa1 | 0xa2 | 0xa3 | 0xa4 | 0xa5 | 0xa6 => binF64 F ins.opCode
  | 0x61 | 0x62 | 0x63 | 0x64 | 0x65 | 0x66 => binCmpF64 F ins.opCode
  | 0xa8 | 0xa9 | 0xaa | 0xab => truncTo32 F ins.opCode
  | 0xac => extendSI32
  | 0xae | 0xaf | 0xb0 | 0xb1 => truncTo64 F ins.opCode
  | 0xb2 | 0xb3 | 0xb4 | 0xb5 | 0xb6 => convTo32 F ins.opCode
  | 0xb7 | 0xb8 | 0xb9 | 0xba | 0xbb => convTo64 F ins.opCode
  | _ => M.trapWith "unsupported op"

/-- The loop of `Runnable::run` (`executable.rs` lines 204–226): pop
exhausted labels; return on the `return` opcode; otherwise advance the
program counter and dispatch.  The runner handed to the dispatcher's
`call` arms is the entry sequence of `run` (pushing the entry label over
the frame body) followed by this loop on the remaining fuel.  `fuel`
bounds the number of loop iterations and nested calls (the source may
loop forever; fuel exhaustion is a modelling artifact, reported as a
distinct trap). -/
def runLoop (F : FloatOps) (oc : Bool) : Nat → M (Option Nat)
  | 0 => M.trapWith "modelling fuel exhausted"
  | fuel' + 1 => do
    let s ← M.get
    if s.labelSize = 0 then ret
    else if s.labelPc ≥ s.labelBody.size then do
      popLabel
      runLoop F oc fuel'
    else
      let ins := s.pool.insInVec s.labelBody s.labelPc
      if ins.opCode = 15 then ret
      else do
        M.mod (fun s' => { s' with labelPc := s.labelPc + 1 })
        invokeOp F oc
          (do
            let t ← M.get
            pushLabel t.resultType.isSome t.frameBody false
            runLoop F oc fuel') ins
        runLoop F oc fuel'

/-- `Runnable::run` (`executable.rs` lines 204–226): push the entry label
over the frame body, then enter the loop. -/
def run (F : FloatOps) (oc : Bool) (fuel : Nat) : M (Option Nat) := do
  let s ← M.get
  pushLabel s.resultType.isSome s.frameBody false
  runLoop F oc fuel

/-- `Runnable::invoke`: the dispatcher with the recursive runner
instantiated, as in the source. -/
def invokeIns (F : FloatOps) (oc : Bool) (fuel : Nat) (ins : InsBits) : M Unit :=
  invokeOp F oc (run F oc fuel) ins

end WasmJni

namespace WasmJni

/-- `opt_to_vec!`: an optional result as a result vector. -/
def optToVec (o : Option Nat) : List Nat :=
  match o with
  | some x => [x]
  | none => []

/-- `Instance::execute` (`instance.rs` lines 163–167): look the name up in
the exports map (error when absent), push a frame with the explicit
arguments — *discarding* `push_frame`'s `Result`, as the source statement
does — then run and wrap the optional result. -/
def execute (F : FloatOps) (oc : Bool) (fuel : Nat) (name : String) (args : List Nat) :
    M (List Nat) := do
  let s ← M.get
  match s.exports.lookup name with
  | none => M.trapWith "function not found"
  | some f => do
      M.ignoreErr (pushFrame f (some args))
      let r ← run F oc fuel
      pure (optToVec r)

/-- A machine with empty module data and all-zero execution arrays; the
concrete states used by witnesses and counterexamples are record updates
of this one. -/
def baseMachine : Machine where
  count := 0
  maxStacks := 64
  maxFrames := 8
  maxLabels := 16
  stackData := fun _ => 0
  frameData := fun _ => ⟨0, 0, 0, 0⟩
  labelData := fun _ => ⟨0, 0, false, false⟩
  offsets := fun _ => ⟨0, 0⟩
  memory := ⟨[], none, 0, 0⟩
  labelSize := 0
  stackSize := 0
  localSize := 0
  funcBits := 0
  frameBody := InsVec.null
  labelBody := InsVec.null
  stackBase := 0
  labelBase := 0
  resultType := none
  labelPc := 0
  labels := fun _ => InsVec.null
  arity := false
  isLoop := false
  stackPc := 0
  functions := []
  exports := []
  table := []
  globals := []
  globalMutable := []
  pool := ⟨fun _ => 0⟩

end WasmJni

namespace WasmJni

theorem p32_pos : 0 < p32 := by decide

theorem p32_eq_pow : p32 = 2 ^ 32 := by decide

theorem M.bind_apply {α β : Type} (x : M α) (f : α → M β) (s : Machine) :
    (x >>= f) s =
      match x s with
      | (Except.ok a, s1) => f a s1
      | (Except.error e, s1) => (Except.error e, s1) := rfl

theorem M.pure_apply {α : Type} (a : α) (s : Machine) :
    (pure a : M α) s = (Except.ok a, s) := rfl

theorem topCell_afterBin (s : Machine) (v : Nat) (h : 2 ≤ s.stackSize) :
    (afterBin s v).topCell = v := by
  have he : s.stackBase + s.localSize + (s.stackSize - 1) - 1
      = s.stackBase + s.localSize + s.stackSize - 2 := by omega
  simp only [afterBin, Machine.topCell, Machine.stackTop, updFn, he, if_pos]

theorem topCell_afterUnop (s : Machine) (v : Nat) :
    (afterUnop s v).topCell = v := by
  simp only [afterUnop, Machine.topCell, Machine.stackTop, updFn, if_pos]

/-- Any binary arm whose combiner only produces values below 2^32 leaves
a top cell below 2^32. -/
theorem topCell_lt_binWith {g : Nat → Nat → Except RtErr Nat} {s s' : Machine}
    (h : binWith g s = (Except.ok (), s'))
    (hg : ∀ v1 v2 c, g v1 v2 = .ok c → c < p32) : s'.topCell < p32 := by
  unfold binWith at h
  by_cases h2 : s.stackSize < 2
  · rw [if_pos h2] at h; simp at h
  · rw [if_neg h2] at h
    revert h
    split
    · intro h; simp at h
    · rename_i c hc
      intro h
      cases h
      rw [topCell_afterBin _ _ (by omega)]
      exact hg _ _ _ hc

/-- Any unary arm whose rewriter only produces values below 2^32 leaves a
top cell below 2^32. -/
theorem topCell_lt_unopWith {g : Nat → Nat} {s s' : Machine}
    (h : unopWith g s = (Except.ok (), s'))
    (hg : ∀ t, g t < p32) : s'.topCell < p32 := by
  unfold unopWith at h
  by_cases h0 : s.stackSize = 0
  · rw [if_pos h0] at h; simp at h
  · rw [if_neg h0] at h
    cases h
    rw [topCell_afterUnop]
    exact hg _

/-- The mapped combiner of `binCastU32` is bounded by 2^32. -/
theorem bound_map32 (f : Nat → Nat → Except RtErr Nat) :
    ∀ v1 v2 c, (f (v1 % p32) (v2 % p32)).map (fun c => c % p32) = .ok c → c < p32 := by
  intro v1 v2 c h
  cases hf : f (v1 % p32) (v2 % p32) <;> rw [hf] at h <;> simp [Except.map] at h
  subst h
  exact Nat.mod_lt _ p32_pos

/-- The combiner of the comparison arms is bounded by 2^32. -/
theorem bound_cmp (p : Nat → Nat → Bool) :
    ∀ v1 v2 c, (Except.ok (if p v1 v2 then 1 else 0) : Except RtErr Nat) = .ok c → c < p32 := by
  intro v1 v2 c h
  cases h
  split <;> decide

end WasmJni

namespace WasmJni

theorem byteAt_lt (m : Memory) (i : Nat) : m.byteAt i < 256 :=
  Nat.mod_lt _ (by decide)

theorem shifted_byte_lt (m : Memory) (i k : Nat) (hk : k ≤ 24) :
    m.byteAt i <<< k < 2 ^ 32 := by
  have hb := byteAt_lt m i
  have h2 : (2 : Nat) ^ k ≤ 2 ^ 24 := Nat.pow_le_pow_right (by decide) hk
  calc m.byteAt i <<< k = m.byteAt i * 2 ^ k := Nat.shiftLeft_eq _ _
    _ ≤ 255 * 2 ^ 24 := Nat.mul_le_mul (by omega) h2
    _ < 2 ^ 32 := by decide

theorem decU16_lt (m : Memory) (off : Nat) : m.decU16 off < p32 := by
  rw [p32_eq_pow]
  unfold Memory.decU16
  exact Nat.or_lt_two_pow (lt_of_lt_of_le (byteAt_lt m off) (by decide))
    (shifted_byte_lt m _ 8 (by decide))

theorem decU32_lt (m : Memory) (off : Nat) : m.decU32 off < p32 := by
  rw [p32_eq_pow]
  unfold Memory.decU32
  exact Nat.or_lt_two_pow
    (Nat.or_lt_two_pow
      (Nat.or_lt_two_pow (lt_of_lt_of_le (byteAt_lt m off) (by decide))
        (shifted_byte_lt m _ 8 (by decide)))
      (shifted_byte_lt m _ 16 (by decide)))
    (shifted_byte_lt m _ 24 (by decide))

theorem memLoadU32_lt : ∀ (off : Nat) (t : Machine) (v : Nat) (t' : Machine),
    memLoadU32 off t = (Except.ok v, t') → v < p32 := by
  intro off t v t' h
  unfold memLoadU32 at h
  rw [Prod.mk.injEq] at h
  obtain ⟨hl, -⟩ := h
  unfold Memory.loadU32 at hl
  split at hl
  · cases hl
  · cases hl; exact decU32_lt _ _

theorem memLoadU16_lt : ∀ (off : Nat) (t : Machine) (v : Nat) (t' : Machine),
    memLoadU16 off t = (Except.ok v, t') → v < p32 := by
  intro off t v t' h
  unfold memLoadU16 at h
  rw [Prod.mk.injEq] at h
  obtain ⟨hl, -⟩ := h
  unfold Memory.loadU16 at hl
  split at hl
  · cases hl
  · cases hl; exact decU16_lt _ _

theorem memLoadU8_lt : ∀ (off : Nat) (t : Machine) (v : Nat) (t' : Machine),
    memLoadU8 off t = (Except.ok v, t') → v < p32 := by
  intro off t v t' h
  unfold memLoadU8 at h
  rw [Prod.mk.injEq] at h
  obtain ⟨hl, -⟩ := h
  unfold Memory.loadU8 at hl
  split at hl
  · cases hl
  · cases hl; exact lt_of_lt_of_le (byteAt_lt _ _) (by decide)

theorem topCell_push {v : Nat} {s s' : Machine} (h : push v s = (Except.ok (), s')) :
    s'.topCell = v := by
  unfold push at h
  dsimp only at h
  split at h
  · simp at h
  · cases h
    have he : s.stackBase + s.localSize + (s.stackSize + 1) - 1
        = s.stackBase + s.localSize + s.stackSize := by omega
    simp only [Machine.topCell, Machine.stackTop, updFn, he, if_pos]

theorem topCell_lt_push_mod {v : Nat} {s s' : Machine}
    (h : push (v % p32) s = (Except.ok (), s')) : s'.topCell < p32 := by
  rw [topCell_push h]; exact Nat.mod_lt _ p32_pos

/-- Memory-load arms that push the loaded value directly. -/
theorem c2aux_memPush {w : Nat → M Nat} {ins : InsBits} {s s' : Machine}
    (h : (do
        let off ← memOff ins
        let v ← w off
        push v : M Unit) s = (Except.ok (), s'))
    (hw : ∀ (off : Nat) (t : Machine) (v : Nat) (t' : Machine),
      w off t = (Except.ok v, t') → v < p32) : s'.topCell < p32 := by
  rcases hmo : memOff ins s with ⟨e | off, s1⟩
  · simp only [M.bind_apply, hmo] at h
    simp at h
  · simp only [M.bind_apply, hmo] at h
    rcases hld : w off s1 with ⟨e2 | v, s2⟩
    · rw [hld] at h; simp at h
    · rw [hld] at h
      rw [topCell_push h]
      exact hw _ _ _ _ hld

/-- Memory-load arms that push a function of the loaded value bounded by
2^32. -/
theorem c2aux_memPushMap {w : Nat → M Nat} {g : Nat → Nat} {ins : InsBits} {s s' : Machine}
    (h : (do
        let off ← memOff ins
        let v ← w off
        push (g v) : M Unit) s = (Except.ok (), s'))
    (hg : ∀ v, g v < p32) : s'.topCell < p32 := by
  rcases hmo : memOff ins s with ⟨e | off, s1⟩
  · simp only [M.bind_apply, hmo] at h
    simp at h
  · simp only [M.bind_apply, hmo] at h
    rcases hld : w off s1 with ⟨e2 | v, s2⟩
    · rw [hld] at h; simp at h
    · rw [hld] at h
      rw [topCell_push h]
      exact hg _

/-- The `memory.size` arm pushes the page count. -/
theorem c2aux_memsize {s s' : Machine} (hpages : s.memory.pages < p32)
    (h : (do
        let p ← memPages
        push p : M Unit) s = (Except.ok (), s')) : s'.topCell < p32 := by
  simp only [M.bind_apply, memPages] at h
  rw [topCell_push h]
  exact hpages

set_option linter.unreachableTactic false in
set_option linter.unusedTactic false in
theorem grow_fst_lt {oc : Bool} {m : Memory} {k r : Nat} {m' : Memory} (hp : m.pages < p32)
    (h : m.grow oc k = .ok (r, m')) : r < p32 := by
  unfold Memory.grow at h
  rcases hmx : m.maximum with - | mx <;> rw [hmx] at h <;> dsimp only at h <;>
    repeat' split at h
  all_goals first
    | (rw [Except.ok.injEq, Prod.mk.injEq] at h; obtain ⟨h3, -⟩ := h; omega)
    | (rw [Except.ok.injEq, Prod.mk.injEq] at h; obtain ⟨h3, -⟩ := h;
        rw [← h3]; decide)
    | simp at h

/-- The `memory.grow` arm pushes the previous page count or `(u32)-1`. -/
theorem c2aux_grow {oc : Bool} {s s' : Machine} (hpages : s.memory.pages < p32)
    (h : (do
        let n ← pop
        let r ← memGrow oc (n % p32)
        push r : M Unit) s = (Except.ok (), s')) : s'.topCell < p32 := by
  rcases hp : pop s with ⟨e | n, s1⟩
  · simp only [M.bind_apply, hp] at h
    simp at h
  · simp only [M.bind_apply, hp] at h
    have hmem : s1.memory = s.memory := by
      unfold pop at hp
      split at hp
      · exact absurd hp (by simp)
      · rw [Prod.mk.injEq] at hp
        obtain ⟨-, h2⟩ := hp
        rw [← h2]
    rcases hg : memGrow oc (n % p32) s1 with ⟨e2 | r, s2⟩
    · rw [hg] at h; simp at h
    · rw [hg] at h
      rw [topCell_push h]
      unfold memGrow at hg
      revert hg
      split
      · intro hg; simp at hg
      · rename_i r2 m2 hgrow
        intro hg
        rw [Prod.mk.injEq] at hg
        obtain ⟨h3, -⟩ := hg
        injection h3 with h4
        rw [← h4]
        exact grow_fst_lt (hmem ▸ hpages) hgrow

theorem bound_ok_mod32 (f : Nat → Nat → Nat) :
    ∀ v1 v2 c, (Except.ok (f v1 v2 % p32) : Except RtErr Nat) = .ok c → c < p32 := by
  intro v1 v2 c h
  cases h
  exact Nat.mod_lt _ p32_pos

theorem bound_eqz64 : ∀ t : Nat, (if t = 0 then 1 else 0) % p64 < p32 := by
  intro t; split <;> decide


/-- Per-combinator corollaries of the two master bounds, with the
combinator unfolded so that applications match first-order. -/
theorem topCell_lt_binCastU32 {f : Nat → Nat → Except RtErr Nat} {s s' : Machine}
    (h : binCastU32 f s = (Except.ok (), s')) : s'.topCell < p32 := by
  unfold binCastU32 at h
  exact topCell_lt_binWith h (bound_map32 f)

theorem topCell_lt_binCmpBool {p : Nat → Nat → Bool} {s s' : Machine}
    (h : binCmpBool p s = (Except.ok (), s')) : s'.topCell < p32 := by
  unfold binCmpBool at h
  exact topCell_lt_binWith h (bound_cmp p)

theorem topCell_lt_binCmpF32 {F : FloatOps} {op : Nat} {s s' : Machine}
    (h : binCmpF32 F op s = (Except.ok (), s')) : s'.topCell < p32 := by
  unfold binCmpF32 at h
  exact topCell_lt_binCmpBool h

theorem topCell_lt_binCmpF64 {F : FloatOps} {op : Nat} {s s' : Machine}
    (h : binCmpF64 F op s = (Except.ok (), s')) : s'.topCell < p32 := by
  unfold binCmpF64 at h
  exact topCell_lt_binCmpBool h

theorem topCell_lt_binF32 {F : FloatOps} {op : Nat} {s s' : Machine}
    (h : binF32 F op s = (Except.ok (), s')) : s'.topCell < p32 := by
  unfold binF32 at h
  exact topCell_lt_binWith h (bound_ok_mod32 _)

theorem topCell_lt_unopU32 {f : Nat → Nat} {s s' : Machine}
    (h : unopU32 f s = (Except.ok (), s')) : s'.topCell < p32 := by
  unfold unopU32 at h
  exact topCell_lt_unopWith h (fun t => Nat.mod_lt _ p32_pos)

theorem topCell_lt_unopU64 {f : Nat → Nat} {s s' : Machine}
    (h : unopU64 f s = (Except.ok (), s')) (hf : ∀ a, f a < p32) : s'.topCell < p32 := by
  unfold unopU64 at h
  refine topCell_lt_unopWith h (fun t => ?_)
  rw [Nat.mod_eq_of_lt (lt_trans (hf t) (by decide))]
  exact hf t

theorem topCell_lt_unopF32 {F : FloatOps} {op : Nat} {s s' : Machine}
    (h : unopF32 F op s = (Except.ok (), s')) : s'.topCell < p32 := by
  unfold unopF32 at h
  exact topCell_lt_unopWith h (fun t => Nat.mod_lt _ p32_pos)

theorem topCell_lt_truncTo32 {F : FloatOps} {op : Nat} {s s' : Machine}
    (h : truncTo32 F op s = (Except.ok (), s')) : s'.topCell < p32 := by
  unfold truncTo32 at h
  exact topCell_lt_unopWith h (fun t => Nat.mod_lt _ p32_pos)

theorem topCell_lt_convTo32 {F : FloatOps} {op : Nat} {s s' : Machine}
    (h : convTo32 F op s = (Except.ok (), s')) : s'.topCell < p32 := by
  unfold convTo32 at h
  exact topCell_lt_unopWith h (fun t => Nat.mod_lt _ p32_pos)

theorem topCell_lt_wrapI64 {s s' : Machine}
    (h : wrapI64 s = (Except.ok (), s')) : s'.topCell < p32 := by
  unfold wrapI64 at h
  exact topCell_lt_unopWith h (fun t => Nat.mod_lt _ p32_pos)

/-- The opcodes whose arms push an `i32` or `f32` result with the high 32
bits of the stack cell zero (all of them except `i32.div_s`, `i32.rem_s`
and `i32.shr_s`, which sign-extend). -/
def i32f32Producers : List Nat :=
  [0x28, 0x2a, 0x2c, 0x2d, 0x2e, 0x2f, 0x3f, 0x40, 0x41, 0x43,
   0x45, 0x46, 0x47, 0x48, 0x49, 0x4a, 0x4b, 0x4c, 0x4d, 0x4e, 0x4f,
   0x50, 0x51, 0x52, 0x53, 0x54, 0x55, 0x56, 0x57, 0x58, 0x59, 0x5a,
   0x5b, 0x5c, 0x5d, 0x5e, 0x5f, 0x60, 0x61, 0x62, 0x63, 0x64, 0x65, 0x66,
   0x67, 0x68, 0x69, 0x6a, 0x6b, 0x6c, 0x6e, 0x70, 0x71, 0x72, 0x73,
   0x74, 0x76, 0x77, 0x78,
   0x8b, 0x8c, 0x8d, 0x8e, 0x8f, 0x90, 0x91, 0x92, 0x93, 0x94, 0x95, 0x96, 0x97, 0x98,
   0xa7, 0xa8, 0xa9, 0xaa, 0xab, 0xb2, 0xb3, 0xb4, 0xb5, 0xb6]

/-- The opcodes dispatched as bit-level no-ops: `nop`, the four same-width
reinterpret casts, and `i64.extend_i32_u`. -/
def noopOpcodes : List Nat := [0x01, 0xbc, 0xbd, 0xad, 0xbe, 0xbf]

/-- A machine with one live frame whose operand stack holds the two given
64-bit cells (`v1` at the bottom, `v2` on top). -/
def twoCellState (a b : Nat) : Machine :=
  { baseMachine with
      count := 1, stackSize := 2,
      stackData := fun i => if i = 0 then a else if i = 1 then b else 0 }

end WasmJni

namespace WasmJni

/-- C2 (counterexample): the claim "every opcode that pushes an i32 or f32
result writes a stack cell with high 32 bits zero (including i32.div_s,
i32.rem_s, i32.shr_s)" is false at `i32.div_s` of −4 by 2: the arm writes
the `i32` quotient back with `as u64` sign extension, so the cell is
0xFFFFFFFFFFFFFFFE, whose high 32 bits are all ones. -/
theorem c2_high_bits_counterexample :
    (invokeIns zeroFloatOps true 0 (InsBits.make 0x6d 0xff 0 0)
        (twoCellState 4294967292 2)).1 = Except.ok ()
  ∧ ((invokeIns zeroFloatOps true 0 (InsBits.make 0x6d 0xff 0 0)
        (twoCellState 4294967292 2)).2).topCell = 18446744073709551614
  ∧ ¬ ((invokeIns zeroFloatOps true 0 (InsBits.make 0x6d 0xff 0 0)
        (twoCellState 4294967292 2)).2).topCell < p32 := by
  refine ⟨rfl, rfl, ?_⟩
  intro hlt
  have h2 : ((invokeIns zeroFloatOps true 0 (InsBits.make 0x6d 0xff 0 0)
      (twoCellState 4294967292 2)).2).topCell = 18446744073709551614 := rfl
  rw [h2] at hlt
  exact absurd hlt (by decide)

set_option maxHeartbeats 4000000 in
/-- C2 (amended): every dispatcher arm that pushes an `i32` or `f32`
result — *except* `i32.div_s`, `i32.rem_s` and `i32.shr_s`, which
sign-extend — leaves the written 64-bit stack cell with its high 32 bits
zero (assuming the page count respects its `u32` type, which only the
`memory.size` / `memory.grow` arms consult); and `nop`, the same-width
reinterpret casts and `i64.extend_i32_u` are bit-level no-ops, leaving
the whole state untouched. -/
theorem c2_amended :
    (∀ (F : FloatOps) (oc : Bool) (fuel : Nat) (ins : InsBits) (s s' : Machine),
        s.memory.pages < p32 →
        ins.opCode ∈ i32f32Producers →
        invokeIns F oc fuel ins s = (Except.ok (), s') →
        s'.topCell < p32)
  ∧ (∀ (F : FloatOps) (oc : Bool) (fuel : Nat) (ins : InsBits) (s : Machine),
        ins.opCode ∈ noopOpcodes →
        invokeIns F oc fuel ins s = (Except.ok (), s)) := by
  constructor
  · intro F oc fuel ins s s' hpages hop hrun
    simp only [i32f32Producers, List.mem_cons, List.not_mem_nil, or_false] at hop
    rcases hop with h|h|h|h|h|h|h|h|h|h|h|h|h|h|h|h|h|h|h|h|h|h|h|h|h|h|h|h|h|h|h|h|h|h|h|h|h|h|h|h|h|h|h|h|h|h|h|h|h|h|h|h|h|h|h|h|h|h|h|h|h|h|h|h|h|h|h|h|h|h|h|h|h|h|h|h|h|h|h|h|h|h|h
    · unfold invokeIns invokeOp at hrun
      rw [h] at hrun
      exact c2aux_memPush hrun memLoadU32_lt
    · unfold invokeIns invokeOp at hrun
      rw [h] at hrun
      exact c2aux_memPush hrun memLoadU32_lt
    · unfold invokeIns invokeOp at hrun
      rw [h] at hrun
      exact c2aux_memPushMap hrun (fun v => Nat.mod_lt _ p32_pos)
    · unfold invokeIns invokeOp at hrun
      rw [h] at hrun
      exact c2aux_memPush hrun memLoadU8_lt
    · unfold invokeIns invokeOp at hrun
      rw [h] at hrun
      exact c2aux_memPushMap hrun (fun v => Nat.mod_lt _ p32_pos)
    · unfold invokeIns invokeOp at hrun
      rw [h] at hrun
      exact c2aux_memPush hrun memLoadU16_lt
    · unfold invokeIns invokeOp at hrun
      rw [h] at hrun
      exact c2aux_memsize hpages hrun
    · unfold invokeIns invokeOp at hrun
      rw [h] at hrun
      exact c2aux_grow hpages hrun
    · unfold invokeIns invokeOp at hrun
      rw [h] at hrun
      exact topCell_lt_push_mod hrun
    · unfold invokeIns invokeOp at hrun
      rw [h] at hrun
      exact topCell_lt_push_mod hrun
    · unfold invokeIns invokeOp at hrun
      rw [h] at hrun
      exact topCell_lt_unopU32 hrun
    · unfold invokeIns invokeOp at hrun
      rw [h] at hrun
      exact topCell_lt_binCmpBool hrun
    · unfold invokeIns invokeOp at hrun
      rw [h] at hrun
      exact topCell_lt_binCmpBool hrun
    · unfold invokeIns invokeOp at hrun
      rw [h] at hrun
      exact topCell_lt_binCmpBool hrun
    · unfold invokeIns invokeOp at hrun
      rw [h] at hrun
      exact topCell_lt_binCmpBool hrun
    · unfold invokeIns invokeOp at hrun
      rw [h] at hrun
      exact topCell_lt_binCmpBool hrun
    · unfold invokeIns invokeOp at hrun
      rw [h] at hrun
      exact topCell_lt_binCmpBool hrun
    · unfold invokeIns invokeOp at hrun
      rw [h] at hrun
      exact topCell_lt_binCmpBool hrun
    · unfold invokeIns invokeOp at hrun
      rw [h] at hrun
      exact topCell_lt_binCmpBool hrun
    · unfold invokeIns invokeOp at hrun
      rw [h] at hrun
      exact topCell_lt_binCmpBool hrun
    · unfold invokeIns invokeOp at hrun
      rw [h] at hrun
      exact topCell_lt_binCmpBool hrun
    · unfold invokeIns invokeOp at hrun
      rw [h] at hrun
      exact topCell_lt_unopU64 hrun (fun a => by split <;> decide)
    · unfold invokeIns invokeOp at hrun
      rw [h] at hrun
      exact topCell_lt_binCmpBool hrun
    · unfold invokeIns invokeOp at hrun
      rw [h] at hrun
      exact topCell_lt_binCmpBool hrun
    · unfold invokeIns invokeOp at hrun
      rw [h] at hrun
      exact topCell_lt_binCmpBool hrun
    · unfold invokeIns invokeOp at hrun
      rw [h] at hrun
      exact topCell_lt_binCmpBool hrun
    · unfold invokeIns invokeOp at hrun
      rw [h] at hrun
      exact topCell_lt_binCmpBool hrun
    · unfold invokeIns invokeOp at hrun
      rw [h] at hrun
      exact topCell_lt_binCmpBool hrun
    · unfold invokeIns invokeOp at hrun
      rw [h] at hrun
      exact topCell_lt_binCmpBool hrun
    · unfold invokeIns invokeOp at hrun
      rw [h] at hrun
      exact topCell_lt_binCmpBool hrun
    · unfold invokeIns invokeOp at hrun
      rw [h] at hrun
      exact topCell_lt_binCmpBool hrun
    · unfold invokeIns invokeOp at hrun
      rw [h] at hrun
      exact topCell_lt_binCmpBool hrun
    · unfold invokeIns invokeOp at hrun
      rw [h] at hrun
      exact topCell_lt_binCmpF32 hrun
    · unfold invokeIns invokeOp at hrun
      rw [h] at hrun
      exact topCell_lt_binCmpF32 hrun
    · unfold invokeIns invokeOp at hrun
      rw [h] at hrun
      exact topCell_lt_binCmpF32 hrun
    · unfold invokeIns invokeOp at hrun
      rw [h] at hrun
      exact topCell_lt_binCmpF32 hrun
    · unfold invokeIns invokeOp at hrun
      rw [h] at hrun
      exact topCell_lt_binCmpF32 hrun
    · unfold invokeIns invokeOp at hrun
      rw [h] at hrun
      exact topCell_lt_binCmpF32 hrun
    · unfold invokeIns invokeOp at hrun
      rw [h] at hrun
      exact topCell_lt_binCmpF64 hrun
    · unfold invokeIns invokeOp at hrun
      rw [h] at hrun
      exact topCell_lt_binCmpF64 hrun
    · unfold invokeIns invokeOp at hrun
      rw [h] at hrun
      exact topCell_lt_binCmpF64 hrun
    · unfold invokeIns invokeOp at hrun
      rw [h] at hrun
      exact topCell_lt_binCmpF64 hrun
    · unfold invokeIns invokeOp at hrun
      rw [h] at hrun
      exact topCell_lt_binCmpF64 hrun
    · unfold invokeIns invokeOp at hrun
      rw [h] at hrun
      exact topCell_lt_binCmpF64 hrun
    · unfold invokeIns invokeOp at hrun
      rw [h] at hrun
      exact topCell_lt_unopU32 hrun
    · unfold invokeIns invokeOp at hrun
      rw [h] at hrun
      exact topCell_lt_unopU32 hrun
    · unfold invokeIns invokeOp at hrun
      rw [h] at hrun
      exact topCell_lt_unopU32 hrun
    · unfold invokeIns invokeOp at hrun
      rw [h] at hrun
      exact topCell_lt_binCastU32 hrun
    · unfold invokeIns invokeOp at hrun
      rw [h] at hrun
      exact topCell_lt_binCastU32 hrun
    · unfold invokeIns invokeOp at hrun
      rw [h] at hrun
      exact topCell_lt_binCastU32 hrun
    · unfold invokeIns invokeOp at hrun
      rw [h] at hrun
      exact topCell_lt_binCastU32 hrun
    · unfold invokeIns invokeOp at hrun
      rw [h] at hrun
      exact topCell_lt_binCastU32 hrun
    · unfold invokeIns invokeOp at hrun
      rw [h] at hrun
      exact topCell_lt_binCastU32 hrun
    · unfold invokeIns invokeOp at hrun
      rw [h] at hrun
      exact topCell_lt_binCastU32 hrun
    · unfold invokeIns invokeOp at hrun
      rw [h] at hrun
      exact topCell_lt_binCastU32 hrun
    · unfold invokeIns invokeOp at hrun
      rw [h] at hrun
      exact topCell_lt_binCastU32 hrun
    · unfold invokeIns invokeOp at hrun
      rw [h] at hrun
      exact topCell_lt_binCastU32 hrun
    · unfold invokeIns invokeOp at hrun
      rw [h] at hrun
      exact topCell_lt_binCastU32 hrun
    · unfold invokeIns invokeOp at hrun
      rw [h] at hrun
      exact topCell_lt_binCastU32 hrun
    · unfold invokeIns invokeOp at hrun
      rw [h] at hrun
      exact topCell_lt_unopF32 hrun
    · unfold invokeIns invokeOp at hrun
      rw [h] at hrun
      exact topCell_lt_unopF32 hrun
    · unfold invokeIns invokeOp at hrun
      rw [h] at hrun
      exact topCell_lt_unopF32 hrun
    · unfold invokeIns invokeOp at hrun
      rw [h] at hrun
      exact topCell_lt_unopF32 hrun
    · unfold invokeIns invokeOp at hrun
      rw [h] at hrun
      exact topCell_lt_unopF32 hrun
    · unfold invokeIns invokeOp at hrun
      rw [h] at hrun
      exact topCell_lt_unopF32 hrun
    · unfold invokeIns invokeOp at hrun
      rw [h] at hrun
      exact topCell_lt_unopF32 hrun
    · unfold invokeIns invokeOp at hrun
      rw [h] at hrun
      exact topCell_lt_binF32 hrun
    · unfold invokeIns invokeOp at hrun
      rw [h] at hrun
      exact topCell_lt_binF32 hrun
    · unfold invokeIns invokeOp at hrun
      rw [h] at hrun
      exact topCell_lt_binF32 hrun
    · unfold invokeIns invokeOp at hrun
      rw [h] at hrun
      exact topCell_lt_binF32 hrun
    · unfold invokeIns invokeOp at hrun
      rw [h] at hrun
      exact topCell_lt_binF32 hrun
    · unfold invokeIns invokeOp at hrun
      rw [h] at hrun
      exact topCell_lt_binF32 hrun
    · unfold invokeIns invokeOp at hrun
      rw [h] at hrun
      exact topCell_lt_binF32 hrun
    · unfold invokeIns invokeOp at hrun
      rw [h] at hrun
      exact topCell_lt_wrapI64 hrun
    · unfold invokeIns invokeOp at hrun
      rw [h] at hrun
      exact topCell_lt_truncTo32 hrun
    · unfold invokeIns invokeOp at hrun
      rw [h] at hrun
      exact topCell_lt_truncTo32 hrun
    · unfold invokeIns invokeOp at hrun
      rw [h] at hrun
      exact topCell_lt_truncTo32 hrun
    · unfold invokeIns invokeOp at hrun
      rw [h] at hrun
      exact topCell_lt_truncTo32 hrun
    · unfold invokeIns invokeOp at hrun
      rw [h] at hrun
      exact topCell_lt_convTo32 hrun
    · unfold invokeIns invokeOp at hrun
      rw [h] at hrun
      exact topCell_lt_convTo32 hrun
    · unfold invokeIns invokeOp at hrun
      rw [h] at hrun
      exact topCell_lt_convTo32 hrun
    · unfold invokeIns invokeOp at hrun
      rw [h] at hrun
      exact topCell_lt_convTo32 hrun
    · unfold invokeIns invokeOp at hrun
      rw [h] at hrun
      exact topCell_lt_convTo32 hrun
  · intro F oc fuel ins s hop
    simp only [noopOpcodes, List.mem_cons, List.not_mem_nil, or_false] at hop
    rcases hop with h|h|h|h|h|h <;>
      (unfold invokeIns invokeOp
       rw [h]
       exact rfl)

/-- C2 (witness): the amended claim instantiated at `i32.add` of 3 and 4. -/
theorem c2_amended_witness :
    (twoCellState 3 4).memory.pages < p32
  ∧ (InsBits.make 0x6a 0xff 0 0).opCode ∈ i32f32Producers
  ∧ ((invokeIns zeroFloatOps true 0 (InsBits.make 0x6a 0xff 0 0)
        (twoCellState 3 4)).2).topCell < p32 :=
  ⟨by decide, by decide,
    c2_amended.1 zeroFloatOps true 0 (InsBits.make 0x6a 0xff 0 0) (twoCellState 3 4) _
      (by decide) (by decide) rfl⟩

end WasmJni

namespace WasmJni

set_option maxHeartbeats 1000000 in
/-- C5: the `i32.div_s` arm is `bin_cast!(self, i32, div)` — Rust's `/`
on `i32`, which *panics* (a host abort, in every build profile) rather
than returning the trap `Err` the claim requires, both on a zero divisor
and on `INT32_MIN / -1`; on every other pair it pushes the
two's-complement truncating quotient sign-extended to 64 bits.  No input
produces a trap error. -/
theorem c5_div_s_aborts_instead_of_trapping (F : FloatOps) (oc : Bool) (fuel : Nat) (ins : InsBits) (s : Machine)
    (hop : ins.opCode = 0x6d) (hs : 2 ≤ s.stackSize) :
    (toI32 (s.stackData (s.stackTop - 1)) = 0 →
      invokeIns F oc fuel ins s
        = (Except.error (RtErr.hostAbort "attempt to divide by zero"), s))
  ∧ (toI32 (s.stackData (s.stackTop - 2)) = -2147483648 →
     toI32 (s.stackData (s.stackTop - 1)) = -1 →
      invokeIns F oc fuel ins s
        = (Except.error (RtErr.hostAbort "attempt to divide with overflow"), s))
  ∧ (toI32 (s.stackData (s.stackTop - 1)) ≠ 0 →
     ¬(toI32 (s.stackData (s.stackTop - 2)) = -2147483648
        ∧ toI32 (s.stackData (s.stackTop - 1)) = -1) →
      invokeIns F oc fuel ins s
        = (Except.ok (), afterBin s (intToU64
            (Int.tdiv (toI32 (s.stackData (s.stackTop - 2)))
                      (toI32 (s.stackData (s.stackTop - 1))))))) := by
  have harm : invokeIns F oc fuel ins s = binCastI32 rustDivI32 s := by
    unfold invokeIns invokeOp
    rw [hop]
  rw [harm]
  unfold binCastI32 binWith rustDivI32
  rw [if_neg (by omega : ¬ s.stackSize < 2)]
  dsimp only
  refine ⟨?_, ?_, ?_⟩
  · intro h0
    rw [if_pos h0]
    rfl
  · intro hmin hneg
    rw [if_neg (by rw [hneg]; decide), if_pos ⟨hmin, hneg⟩]
    rfl
  · intro h0 hnot
    rw [if_neg h0, if_neg hnot]
    rfl

/-- C5 (witness): `i32.div_s` of 7 by 0 aborts the host. -/
theorem c5_div_s_aborts_instead_of_trapping_witness :
    (InsBits.make 0x6d 0xff 0 0).opCode = 0x6d
  ∧ 2 ≤ (twoCellState 7 0).stackSize
  ∧ toI32 ((twoCellState 7 0).stackData ((twoCellState 7 0).stackTop - 1)) = 0
  ∧ invokeIns zeroFloatOps true 0 (InsBits.make 0x6d 0xff 0 0) (twoCellState 7 0)
      = (Except.error (RtErr.hostAbort "attempt to divide by zero"), twoCellState 7 0) :=
  ⟨rfl, by decide, by decide,
    (c5_div_s_aborts_instead_of_trapping zeroFloatOps true 0 (InsBits.make 0x6d 0xff 0 0) (twoCellState 7 0)
        (by decide) (by decide)).1 (by decide)⟩

set_option maxHeartbeats 1000000 in
/-- C6: the `i32.rem_s` arm is `bin_cast!(self, i32, rem)` — Rust's `%`
on `i32`, which panics (host abort) on `INT32_MIN % -1` instead of
pushing 0 as the claim (and the WebAssembly specification) requires, and
also panics — rather than trapping — on a zero divisor; on every other
pair it pushes the truncated remainder sign-extended to 64 bits. -/
theorem c6_rem_s_aborts_on_min_neg1 (F : FloatOps) (oc : Bool) (fuel : Nat) (ins : InsBits) (s : Machine)
    (hop : ins.opCode = 0x6f) (hs : 2 ≤ s.stackSize) :
    (toI32 (s.stackData (s.stackTop - 1)) = 0 →
      invokeIns F oc fuel ins s
        = (Except.error
            (RtErr.hostAbort "attempt to calculate the remainder with a divisor of zero"), s))
  ∧ (toI32 (s.stackData (s.stackTop - 2)) = -2147483648 →
     toI32 (s.stackData (s.stackTop - 1)) = -1 →
      invokeIns F oc fuel ins s
        = (Except.error
            (RtErr.hostAbort "attempt to calculate the remainder with overflow"), s))
  ∧ (toI32 (s.stackData (s.stackTop - 1)) ≠ 0 →
     ¬(toI32 (s.stackData (s.stackTop - 2)) = -2147483648
        ∧ toI32 (s.stackData (s.stackTop - 1)) = -1) →
      invokeIns F oc fuel ins s
        = (Except.ok (), afterBin s (intToU64
            (Int.tmod (toI32 (s.stackData (s.stackTop - 2)))
                      (toI32 (s.stackData (s.stackTop - 1))))))) := by
  have harm : invokeIns F oc fuel ins s = binCastI32 rustRemI32 s := by
    unfold invokeIns invokeOp
    rw [hop]
  rw [harm]
  unfold binCastI32 binWith rustRemI32
  rw [if_neg (by omega : ¬ s.stackSize < 2)]
  dsimp only
  refine ⟨?_, ?_, ?_⟩
  · intro h0
    rw [if_pos h0]
    rfl
  · intro hmin hneg
    rw [if_neg (by rw [hneg]; decide), if_pos ⟨hmin, hneg⟩]
    rfl
  · intro h0 hnot
    rw [if_neg h0, if_neg hnot]
    rfl

/-- C6 (witness): `i32.rem_s` of `INT32_MIN` by `-1` aborts the host
instead of pushing 0. -/
theorem c6_rem_s_aborts_on_min_neg1_witness :
    (InsBits.make 0x6f 0xff 0 0).opCode = 0x6f
  ∧ 2 ≤ (twoCellState 2147483648 4294967295).stackSize
  ∧ toI32 ((twoCellState 2147483648 4294967295).stackData
        ((twoCellState 2147483648 4294967295).stackTop - 2)) = -2147483648
  ∧ toI32 ((twoCellState 2147483648 4294967295).stackData
        ((twoCellState 2147483648 4294967295).stackTop - 1)) = -1
  ∧ invokeIns zeroFloatOps true 0 (InsBits.make 0x6f 0xff 0 0)
        (twoCellState 2147483648 4294967295)
      = (Except.error (RtErr.hostAbort "attempt to calculate the remainder with overflow"),
         twoCellState 2147483648 4294967295) :=
  ⟨rfl, by decide, by decide, by decide,
    (c6_rem_s_aborts_on_min_neg1 zeroFloatOps true 0 (InsBits.make 0x6f 0xff 0 0)
        (twoCellState 2147483648 4294967295)
        (by decide) (by decide)).2.1 (by decide) (by decide)⟩

/-- C10: the shift arms pass the raw count to Rust's shift operators.
With overflow checks on (the profile the repository's tests build with),
a count ≥ width is a panic — a host abort, not a masked shift — for
`i32.shl`, `i32.shr_u`, `i32.shr_s` and `i64.shl`; only with overflow
checks off does the hardware masking the claim describes occur, as the
final conjunct states for `u32::shl`. -/
theorem c10_shift_counts_not_masked :
    (invokeIns zeroFloatOps true 0 (InsBits.make 0x74 0xff 0 0) (twoCellState 5 32)).1
      = Except.error (RtErr.hostAbort "attempt to shift with overflow")
  ∧ (invokeIns zeroFloatOps true 0 (InsBits.make 0x76 0xff 0 0) (twoCellState 5 32)).1
      = Except.error (RtErr.hostAbort "attempt to shift with overflow")
  ∧ (invokeIns zeroFloatOps true 0 (InsBits.make 0x75 0xff 0 0) (twoCellState 5 32)).1
      = Except.error (RtErr.hostAbort "attempt to shift with overflow")
  ∧ (invokeIns zeroFloatOps true 0 (InsBits.make 0x86 0xff 0 0) (twoCellState 5 64)).1
      = Except.error (RtErr.hostAbort "attempt to shift with overflow")
  ∧ ((invokeIns zeroFloatOps false 0 (InsBits.make 0x74 0xff 0 0) (twoCellState 5 32)).2).topCell
      = 5
  ∧ (∀ a v : Nat, rustShlU32 false a v = .ok ((a <<< (v % 32)) % p32)) := by
  refine ⟨rfl, rfl, rfl, rfl, rfl, ?_⟩
  intro a v
  unfold rustShlU32 rustShift
  by_cases hv : v ≥ 32
  · rw [if_pos hv, if_neg (by decide)]
  · rw [if_neg hv, show v % 32 = v from Nat.mod_eq_of_lt (by omega)]

end WasmJni

namespace WasmJni

/-- A one-page memory with a declared maximum of one page. -/
def c4cxm : Memory := ⟨[], some 1, 10, 1⟩

/-- C4 (counterexample): the claim quantifies over every page count and
growth amount, but the source computes `pages + n` and the byte length in
Rust `u32` arithmetic.  At `pages = 1`, `maximum = Some 1`, `n = u32::MAX`
the claim demands `(u32)-1` with the memory unchanged; with overflow
checks on the add panics (host abort), and with them off the sum wraps to
0, both limit checks pass, and grow returns `Ok(1)` after setting `pages`
to 0 — neither profile returns `(u32)-1`. -/
theorem c4_grow_u32_counterexample :
    c4cxm.maximum = some 1
  ∧ c4cxm.pages + 4294967295 > 1
  ∧ Memory.grow true c4cxm 4294967295
      = .error (.hostAbort "attempt to add with overflow")
  ∧ Memory.grow false c4cxm 4294967295 = .ok (1, { c4cxm with pages := 0 }) :=
  ⟨rfl, by omega, rfl, rfl⟩

/-- C4 (amended): whenever the `u32` arithmetic does not overflow
(`pages + k < 2^32` and `(pages + k)·65536 < 2^32`), `Memory::grow`
behaves as the claim says, in source order — `(u32)-1` without growing
when the module-declared `maximum` would be exceeded; a trap when the
interpreter's `max_pages` limit would be exceeded (and the declared
maximum, checked first, is not); otherwise the previous page count is
returned, the page counter (what `memory.size` pushes) becomes `p + k`,
the first `p·65536` bytes are preserved byte for byte, and every new byte
is zero.  Outside those bounds the source panics or wraps (see the
counterexample). -/
theorem c4_memory_grow (oc : Bool) (m : Memory) (k : Nat)
    (hlen : m.data.length = m.pages * pageSize)
    (hp : m.pages + k < p32)
    (hmul : (m.pages + k) * pageSize < p32) :
    (∀ mx, m.maximum = some mx → m.pages + k > mx → m.grow oc k = .ok (p32 - 1, m))
  ∧ ((∀ mx, m.maximum = some mx → m.pages + k ≤ mx) → m.pages + k > m.maxPages →
        m.grow oc k = .error (.trap "memory overflow: cannot grow any more"))
  ∧ ((∀ mx, m.maximum = some mx → m.pages + k ≤ mx) → m.pages + k ≤ m.maxPages →
        ∃ m', m.grow oc k = .ok (m.pages, m')
          ∧ m'.pages = m.pages + k
          ∧ m'.data.length = (m.pages + k) * pageSize
          ∧ (∀ i, i < m.pages * pageSize → m'.data.getD i 0 = m.data.getD i 0)
          ∧ (∀ i, m.pages * pageSize ≤ i → i < (m.pages + k) * pageSize →
              m'.data.getD i 0 = 0)) := by
  have hoc : ¬(oc = true ∧ m.pages + k ≥ p32) := by
    rintro ⟨-, h2⟩; omega
  have hsum : (m.pages + k) % p32 = m.pages + k := Nat.mod_eq_of_lt hp
  have hlenle : m.data.length ≤ (m.pages + k) * pageSize := by
    rw [hlen]
    exact Nat.mul_le_mul_right _ (by omega)
  refine ⟨?_, ?_, ?_⟩
  · intro mx hmx hgt
    unfold Memory.grow
    rw [if_neg hoc, hmx]
    dsimp only
    rw [hsum, if_pos hgt]
  · intro hmx hgt
    unfold Memory.grow
    rw [if_neg hoc]
    cases hm : m.maximum with
    | none =>
      dsimp only
      rw [hsum, if_pos hgt]
    | some mx =>
      have := hmx mx hm
      dsimp only
      rw [hsum, if_neg (by omega), if_pos hgt]
  · intro hmx hle
    have hmulo : ¬(oc = true ∧ (m.pages + k) * pageSize ≥ p32) := by
      rintro ⟨-, h2⟩; omega
    have hnl : (m.pages + k) * pageSize % p32 = (m.pages + k) * pageSize :=
      Nat.mod_eq_of_lt hmul
    have hgrow : m.grow oc k = .ok (m.pages,
        { m with data := m.data ++ List.replicate ((m.pages + k) * pageSize - m.data.length) 0,
                 pages := m.pages + k }) := by
      unfold Memory.grow
      rw [if_neg hoc]
      cases hm : m.maximum with
      | none =>
        dsimp only
        rw [hsum, if_neg (by omega), if_neg hmulo, hnl, if_neg (by omega)]
      | some mx =>
        have := hmx mx hm
        dsimp only
        rw [hsum, if_neg (by omega), if_neg (by omega), if_neg hmulo, hnl,
            if_neg (by omega)]
    refine ⟨_, hgrow, rfl, ?_, ?_, ?_⟩
    · simp only [List.length_append, List.length_replicate]
      omega
    · intro i hi
      exact List.getD_append _ _ _ _ (by omega)
    · intro i hi1 hi2
      rw [List.getD_append_right _ _ _ _ (by omega)]
      simp only [List.getD_eq_getElem?_getD, List.getElem?_replicate]
      split <;> rfl

/-- A zero-page memory allowed one page, for the C4 witness. -/
def c4w : Memory := ⟨[], none, 1, 0⟩

/-- C4 (witness): growing the empty zero-page memory by one page. -/
theorem c4_memory_grow_witness :
    (c4w.data.length = c4w.pages * pageSize
      ∧ c4w.pages + 1 < p32 ∧ (c4w.pages + 1) * pageSize < p32)
  ∧ ((∀ mx, c4w.maximum = some mx → c4w.pages + 1 > mx → c4w.grow true 1 = .ok (p32 - 1, c4w))
  ∧ ((∀ mx, c4w.maximum = some mx → c4w.pages + 1 ≤ mx) → c4w.pages + 1 > c4w.maxPages →
        c4w.grow true 1 = .error (.trap "memory overflow: cannot grow any more"))
  ∧ ((∀ mx, c4w.maximum = some mx → c4w.pages + 1 ≤ mx) → c4w.pages + 1 ≤ c4w.maxPages →
        ∃ m', c4w.grow true 1 = .ok (c4w.pages, m')
          ∧ m'.pages = c4w.pages + 1
          ∧ m'.data.length = (c4w.pages + 1) * pageSize
          ∧ (∀ i, i < c4w.pages * pageSize → m'.data.getD i 0 = c4w.data.getD i 0)
          ∧ (∀ i, c4w.pages * pageSize ≤ i → i < (c4w.pages + 1) * pageSize →
              m'.data.getD i 0 = 0))) :=
  ⟨⟨rfl, by decide, by decide⟩, c4_memory_grow true c4w 1 rfl (by decide) (by decide)⟩

end WasmJni

namespace WasmJni

set_option maxHeartbeats 1000000 in
/-- C3: for every state with `labelSize >= l+1`, `branch l` sets the open
label count to `labelSize - l` (target index `labelSize-1-l`), reloads that
label's descriptor (`stackPc`, `arity`, `isLoop`, body) when `l > 0` and
keeps the live registers when `l = 0`, pops the top value and restores the
stack height to the target's `stackPc` re-pushing the value when the target
has arity (truncates without touching the data otherwise), and re-enters
the target with `labelPc = 0` for a loop and the body's size otherwise. -/
theorem c3_branch (s : Machine) (l : Nat) (A lo : Bool) (pc : Nat) (bd : InsVec)
    (hl : l + 1 ≤ s.labelSize)
    (hinv : s.labelBase + s.labelSize ≤ s.maxLabels)
    (hA : A = if l = 0 then s.arity else
      (s.labelData (s.labelBase + (s.labelSize - 1 - l))).arity)
    (hlo : lo = if l = 0 then s.isLoop else
      (s.labelData (s.labelBase + (s.labelSize - 1 - l))).isLoop)
    (hpc : pc = if l = 0 then s.stackPc else
      (s.labelData (s.labelBase + (s.labelSize - 1 - l))).stackPc)
    (hbd : bd = if l = 0 then s.labelBody else s.labels (s.labelBase + (s.labelSize - 1 - l)))
    (htop : A = true → 0 < s.stackSize)
    (hpush : A = true → s.stackBase + s.localSize + pc < s.maxStacks) :
    ∃ s', branch l s = (Except.ok (), s')
      ∧ s'.labelSize = s.labelSize - l
      ∧ s'.labelPc = (if lo then 0 else bd.size)
      ∧ s'.arity = A ∧ s'.isLoop = lo ∧ s'.stackPc = pc ∧ s'.labelBody = bd
      ∧ s'.stackSize = pc + (if A then 1 else 0)
      ∧ (A = true → s'.stackData (s.stackBase + s.localSize + pc)
            = s.stackData (s.stackBase + s.localSize + s.stackSize - 1))
      ∧ (A = false → s'.stackData = s.stackData) := by
  unfold branch pop push
  rw [if_neg (by omega)]
  by_cases hl0 : l = 0
  · subst hl0
    simp only [if_pos rfl, ite_true, eq_self_iff_true] at hA hlo hpc hbd
    subst hA hlo hpc hbd
    dsimp only
    rw [if_neg (show ¬((0:Nat) ≠ 0) by omega)]
    by_cases ha : s.arity
    · have h2 : (s.stackSize = 0) = False := by
        simp only [eq_iff_iff, iff_false]
        have := htop ha; omega
      have h3 : (s.stackBase + s.localSize + s.stackPc ≥ s.maxStacks) = False := by
        simp only [eq_iff_iff, iff_false]
        have := hpush ha; omega
      have h4 : (s.labelBase + (s.labelSize - 1 - 0) = s.maxLabels) = False := by
        simp only [eq_iff_iff, iff_false]
        omega
      simp only [ha, h2, h3, h4, if_true, if_false, ite_true, ite_false]
      refine ⟨_, rfl, ?_, ?_, ?_, ?_, ?_, ?_, ?_, ?_, ?_⟩ <;>
        simp [updFn, ha]
      omega
    · have h4 : (s.labelBase + (s.labelSize - 1 - 0) = s.maxLabels) = False := by
        simp only [eq_iff_iff, iff_false]
        omega
      simp only [ha, h4, if_true, if_false, ite_true, ite_false, Bool.false_eq_true]
      refine ⟨_, rfl, ?_, ?_, ?_, ?_, ?_, ?_, ?_, ?_, ?_⟩ <;>
        simp [ha]
      omega
  · simp only [if_neg hl0] at hA hlo hpc hbd
    subst hA hlo hpc hbd
    dsimp only
    rw [if_pos hl0]
    dsimp only
    by_cases ha : (s.labelData (s.labelBase + (s.labelSize - 1 - l))).arity
    · have h2 : (s.stackSize = 0) = False := by
        simp only [eq_iff_iff, iff_false]
        have := htop ha; omega
      have h3 : (s.stackBase + s.localSize
          + (s.labelData (s.labelBase + (s.labelSize - 1 - l))).stackPc ≥ s.maxStacks) = False := by
        simp only [eq_iff_iff, iff_false]
        have := hpush ha; omega
      have h4 : (s.labelBase + (s.labelSize - 1 - l) = s.maxLabels) = False := by
        simp only [eq_iff_iff, iff_false]
        omega
      simp only [ha, h2, h3, h4, if_true, if_false, ite_true, ite_false]
      refine ⟨_, rfl, ?_, ?_, ?_, ?_, ?_, ?_, ?_, ?_, ?_⟩ <;>
        simp [updFn, ha]
      omega
    · have h4 : (s.labelBase + (s.labelSize - 1 - l) = s.maxLabels) = False := by
        simp only [eq_iff_iff, iff_false]
        omega
      simp only [ha, h4, if_true, if_false, ite_true, ite_false, Bool.false_eq_true]
      refine ⟨_, rfl, ?_, ?_, ?_, ?_, ?_, ?_, ?_, ?_, ?_⟩
      all_goals simp only [Bool.not_eq_true] at ha
      all_goals try simp [ha]
      all_goals omega

/-- A concrete machine with two open labels, used to exercise `branch 1`. -/
def c3m : Machine :=
  { baseMachine with
    labelSize := 2
    stackSize := 3
    stackData := fun i => i + 10
    labelData := fun i => if i = 0 then ⟨1, 5, true, false⟩ else ⟨0, 0, false, false⟩
    labels := fun i => if i = 0 then ⟨3 * 4294967296 + 100⟩ else InsVec.null }

/-- C3 witness: `branch 1` on `c3m` succeeds and restores the target label. -/
theorem c3_branch_witness :
    (1 + 1 ≤ c3m.labelSize)
    ∧ ∃ s', branch 1 c3m = (Except.ok (), s')
      ∧ s'.labelSize = c3m.labelSize - 1
      ∧ s'.labelPc = (if false then 0 else (InsVec.mk (3 * 4294967296 + 100)).size)
      ∧ s'.arity = true ∧ s'.isLoop = false ∧ s'.stackPc = 1
      ∧ s'.labelBody = InsVec.mk (3 * 4294967296 + 100)
      ∧ s'.stackSize = 1 + (if true then 1 else 0)
      ∧ (true = true → s'.stackData (c3m.stackBase + c3m.localSize + 1)
            = c3m.stackData (c3m.stackBase + c3m.localSize + c3m.stackSize - 1))
      ∧ (true = false → s'.stackData = c3m.stackData) :=
  ⟨by decide,
    c3_branch c3m 1 true false 1 (InsVec.mk (3 * 4294967296 + 100))
      (by decide) (by decide) (by decide) (by decide) (by decide) (by decide)
      (fun _ => by decide) (fun _ => by decide)⟩

end WasmJni

namespace WasmJni

set_option maxHeartbeats 1000000 in
/-- C7: `br_table` with an empty operand table traps with "invalid empty
br table data" leaving the state unchanged; otherwise it peeks (without
popping) the top value as a `u32` index, selects lane `i` when
`i < size-1` and the default lane `size-1` otherwise, drops the index
cell, and branches to the selected label. -/
theorem c7_br_table (F : FloatOps) (oc : Bool) (fuel : Nat) (ins : InsBits) (s : Machine)
    (hop : ins.opCode = 0x0e) (hs : 0 < s.stackSize) :
    invokeIns F oc fuel ins s =
      (if ins.operandSize = 0 then
        (Except.error (RtErr.trap "invalid empty br table data"), s)
      else
        let i := s.stackData (s.stackBase + s.localSize + s.stackSize - 1) % p32
        let n := if i < ins.operandSize - 1 then s.pool.operand ins i
                 else s.pool.operand ins (ins.operandSize - 1)
        branch (n % p32) { s with stackSize := s.stackSize - 1 }) := by
  unfold invokeIns invokeOp
  rw [hop]
  simp only [M.bind_apply, M.pure_apply, peek, dropUnchecked, M.get, M.trapWith, M.throwErr]
  rw [if_neg (by omega : ¬ s.stackSize = 0)]
  by_cases hsz : ins.operandSize = 0
  · simp only [hsz, eq_self_iff_true, if_true, ite_true]
    rfl
  · simp only [if_neg hsz]
    split
    · rfl
    · rfl

/-- A one-value machine with one open label, for exercising `br_table`. -/
def c7m : Machine :=
  { baseMachine with
    stackSize := 1
    labelSize := 1 }

/-- C7 witness: `br_table` with a two-lane table on `c7m`. -/
theorem c7_br_table_witness :
    (InsBits.make 0x0e 0 2 5).opCode = 0x0e ∧ 0 < c7m.stackSize ∧
    invokeIns zeroFloatOps true 0 (InsBits.make 0x0e 0 2 5) c7m =
      (if (InsBits.make 0x0e 0 2 5).operandSize = 0 then
        (Except.error (RtErr.trap "invalid empty br table data"), c7m)
      else
        let i := c7m.stackData (c7m.stackBase + c7m.localSize + c7m.stackSize - 1) % p32
        let n := if i < (InsBits.make 0x0e 0 2 5).operandSize - 1 then
              c7m.pool.operand (InsBits.make 0x0e 0 2 5) i
            else c7m.pool.operand (InsBits.make 0x0e 0 2 5)
              ((InsBits.make 0x0e 0 2 5).operandSize - 1)
        branch (n % p32) { c7m with stackSize := c7m.stackSize - 1 }) :=
  ⟨by decide, by decide,
    c7_br_table zeroFloatOps true 0 (InsBits.make 0x0e 0 2 5) c7m (by decide) (by decide)⟩

end WasmJni

namespace WasmJni
/-- A machine whose label registers hold a recognisable value and whose
label arena is already full. -/
def c9cx : Machine := { baseMachine with maxLabels := 0, labelPc := 7 }

/-- C9 (counterexample): the claim says an operation that would exceed a
limit leaves the state unchanged, but `push_label` overwrites the live
label registers *before* its limit check: on a full label arena it
returns the overflow error with `label_pc` already reset to 0. -/
theorem c9_push_label_counterexample :
    (pushLabel false InsVec.null false c9cx).1
        = Except.error (RtErr.trap "push label failed: label size overflow")
    ∧ ((pushLabel false InsVec.null false c9cx).2).labelPc = 0
    ∧ c9cx.labelPc = 7 := ⟨rfl, rfl, rfl⟩

/-- On success `push_fr!` zeroes the live-frame scalars and moves the
bases to just past the previous frame's slots (or 0 for the first
frame); the limits are untouched. -/
theorem pushFr_ok_fields {s s' : Machine} (h : pushFr s = (Except.ok (), s')) :
    s'.maxStacks = s.maxStacks ∧ s'.maxLabels = s.maxLabels
  ∧ s'.localSize = 0 ∧ s'.stackSize = 0 ∧ s'.labelSize = 0
  ∧ (s'.stackBase = 0 ∨ s'.stackBase = s.stackBase + s.localSize + s.stackSize)
  ∧ (s'.labelBase = 0 ∨ s'.labelBase = s.labelBase + s.labelSize) := by
  unfold pushFr at h
  split at h
  · exact absurd h (by simp)
  · dsimp only at h
    rw [Prod.mk.injEq] at h
    obtain ⟨-, h2⟩ := h
    subst h2
    by_cases hc : s.count = 0 <;> by_cases hl : s.labelSize = 0 <;>
      simp [Machine.clearFrame, Machine.saveFrame, Machine.saveLabel, hc, hl]

/-- C9 (amended): the pushing operations preserve the limit invariants —
`push` on success bumps the stack size keeping
`stackBase + localSize + stackSize ≤ maxStacks` (labels untouched);
`push_fr!` on success re-establishes both invariants for the fresh frame
whenever they held; `push_label` on success re-establishes
`labelBase + labelSize ≤ maxLabels` whenever it held (stack untouched) —
and an operation that would exceed a limit returns its distinct checked
error: `push` fails with "stack overflow" and `push_fr!` with
"frame overflow", both leaving the state unchanged, while `push_label`
fails with "push label failed: label size overflow" without bumping
`label_size` but only after overwriting the label registers. -/
theorem c9_limit_checks (s : Machine) :
    (s.stackBase + s.localSize + s.stackSize ≥ s.maxStacks →
      ∀ v, push v s = (Except.error (RtErr.trap "stack overflow"), s))
  ∧ (s.stackBase + s.localSize + s.stackSize < s.maxStacks →
      ∀ v, ∃ s', push v s = (Except.ok (), s')
        ∧ s'.stackSize = s.stackSize + 1
        ∧ s'.stackBase + s'.localSize + s'.stackSize ≤ s.maxStacks
        ∧ s'.labelBase = s.labelBase ∧ s'.labelSize = s.labelSize
        ∧ s'.maxLabels = s.maxLabels)
  ∧ (s.count = s.maxFrames → pushFr s = (Except.error (RtErr.trap "frame overflow"), s))
  ∧ (s.labelBase + s.labelSize = s.maxLabels → ∀ a b lp, ∃ s',
      pushLabel a b lp s
          = (Except.error (RtErr.trap "push label failed: label size overflow"), s')
        ∧ s'.arity = a ∧ s'.isLoop = lp ∧ s'.labelPc = 0 ∧ s'.labelBody = b
        ∧ s'.labelSize = s.labelSize)
  ∧ (s.stackBase + s.localSize + s.stackSize ≤ s.maxStacks →
     s.labelBase + s.labelSize ≤ s.maxLabels →
      ∀ s', pushFr s = (Except.ok (), s') →
        s'.stackBase + s'.localSize + s'.stackSize ≤ s'.maxStacks
        ∧ s'.labelBase + s'.labelSize ≤ s'.maxLabels)
  ∧ (s.labelBase + s.labelSize ≤ s.maxLabels →
      ∀ a b lp s', pushLabel a b lp s = (Except.ok (), s') →
        s'.labelBase + s'.labelSize ≤ s'.maxLabels
        ∧ s'.stackBase = s.stackBase ∧ s'.localSize = s.localSize
        ∧ s'.stackSize = s.stackSize ∧ s'.maxStacks = s.maxStacks) := by
  refine ⟨?_, ?_, ?_, ?_, ?_, ?_⟩
  · intro h v
    unfold push
    rw [if_pos h]
  · intro h v
    unfold push
    rw [if_neg (by omega)]
    exact ⟨_, rfl, rfl, by simp; omega, rfl, rfl, rfl⟩
  · intro h
    unfold pushFr
    rw [if_pos h]
  · intro h a b lp
    unfold pushLabel Machine.saveLabel
    dsimp only
    by_cases h0 : s.labelSize ≠ 0
    · rw [if_pos h0, if_pos (by simpa using h)]
      exact ⟨_, rfl, rfl, rfl, rfl, rfl, rfl⟩
    · rw [if_neg h0, if_pos (by simpa using h)]
      exact ⟨_, rfl, rfl, rfl, rfl, rfl, rfl⟩
  · intro hst hlb s' h
    obtain ⟨h1, h2, h3, h4, h5, h6, h7⟩ := pushFr_ok_fields h
    constructor <;> omega
  · intro hlb a b lp s' h
    unfold pushLabel Machine.saveLabel at h
    dsimp only at h
    by_cases h0 : s.labelSize ≠ 0
    · rw [if_pos h0] at h
      split at h
      · exact absurd h (by simp)
      · rename_i hguard
        have hg2 : ¬(s.labelBase + s.labelSize = s.maxLabels) := hguard
        rw [Prod.mk.injEq] at h
        obtain ⟨-, h2⟩ := h
        subst h2
        refine ⟨?_, rfl, rfl, rfl, rfl⟩
        show s.labelBase + (s.labelSize + 1) ≤ s.maxLabels
        omega
    · rw [if_neg h0] at h
      split at h
      · exact absurd h (by simp)
      · rename_i hguard
        have hg2 : ¬(s.labelBase + s.labelSize = s.maxLabels) := hguard
        rw [Prod.mk.injEq] at h
        obtain ⟨-, h2⟩ := h
        subst h2
        refine ⟨?_, rfl, rfl, rfl, rfl⟩
        show s.labelBase + (s.labelSize + 1) ≤ s.maxLabels
        omega

/-- Machine with all limits zero. -/
def c9w : Machine := { baseMachine with maxStacks := 0, maxFrames := 0, maxLabels := 0 }

/-- C9 (witness): the amended claim at zero-limit and default machines. -/
theorem c9_limit_checks_witness :
    (push 5 c9w = (Except.error (RtErr.trap "stack overflow"), c9w))
  ∧ (∃ s', push 5 baseMachine = (Except.ok (), s')
        ∧ s'.stackSize = baseMachine.stackSize + 1
        ∧ s'.stackBase + s'.localSize + s'.stackSize ≤ baseMachine.maxStacks
        ∧ s'.labelBase = baseMachine.labelBase ∧ s'.labelSize = baseMachine.labelSize
        ∧ s'.maxLabels = baseMachine.maxLabels)
  ∧ (pushFr c9w = (Except.error (RtErr.trap "frame overflow"), c9w))
  ∧ (∃ s', pushLabel true InsVec.null false c9w
          = (Except.error (RtErr.trap "push label failed: label size overflow"), s')
        ∧ s'.arity = true ∧ s'.isLoop = false ∧ s'.labelPc = 0
        ∧ s'.labelBody = InsVec.null ∧ s'.labelSize = c9w.labelSize)
  ∧ ((pushFr baseMachine).2.stackBase + (pushFr baseMachine).2.localSize
        + (pushFr baseMachine).2.stackSize ≤ (pushFr baseMachine).2.maxStacks
      ∧ (pushFr baseMachine).2.labelBase + (pushFr baseMachine).2.labelSize
        ≤ (pushFr baseMachine).2.maxLabels)
  ∧ (pushLabel true InsVec.null false baseMachine).2.labelBase
        + (pushLabel true InsVec.null false baseMachine).2.labelSize
      ≤ (pushLabel true InsVec.null false baseMachine).2.maxLabels :=
  ⟨(c9_limit_checks c9w).1 (by decide) 5,
   (c9_limit_checks baseMachine).2.1 (by decide) 5,
   (c9_limit_checks c9w).2.2.1 (by decide),
   (c9_limit_checks c9w).2.2.2.1 (by decide) true InsVec.null false,
   (c9_limit_checks baseMachine).2.2.2.2.1 (by decide) (by decide) _ rfl,
   ((c9_limit_checks baseMachine).2.2.2.2.2 (by decide) true InsVec.null false _ rfl).1⟩

end WasmJni

namespace WasmJni

/-- A module exporting one function `f` taking one `i32` parameter with an
empty body and no result. -/
def c1fn : WASMFunction := ⟨[ValueType.I32], [], InsVec.null, []⟩

/-- The machine holding that module. -/
def c1m : Machine := { baseMachine with exports := [("f", c1fn)] }

/-- C1 (counterexample): the claim says `invoke` returns an error unless
`args.length` equals the parameter count, but `execute` performs no such
check (and discards `push_frame`'s `Result`): invoking the one-parameter
export `f` with zero arguments succeeds. -/
theorem c1_wrong_arg_count_accepted :
    c1m.exports.lookup "f" = some c1fn
  ∧ c1fn.params.length = 1
  ∧ List.length ([] : List Nat) = 0
  ∧ (execute zeroFloatOps true 3 "f" [] c1m).1.toOption = some [] :=
  ⟨rfl, rfl, rfl, by decide⟩

/-- C1 (amended): `execute` looks the name up in the exports map and traps
with "function not found" leaving the state unchanged when it is absent;
when found it pushes a frame with the explicit arguments (discarding any
push error), runs it, and wraps the optional result as `[]` or `[v]` —
with no argument-count validation anywhere on the path. -/
theorem c1_execute (F : FloatOps) (oc : Bool) (fuel : Nat) (name : String)
    (args : List Nat) (s : Machine) :
    (s.exports.lookup name = none →
      execute F oc fuel name args s
        = (Except.error (RtErr.trap "function not found"), s))
  ∧ (∀ f s' r, s.exports.lookup name = some f →
      run F oc fuel (pushFrame f (some args) s).2 = (Except.ok r, s') →
      execute F oc fuel name args s
        = (Except.ok (match r with | none => [] | some v => [v]), s'))
  ∧ (∀ f s' e, s.exports.lookup name = some f →
      run F oc fuel (pushFrame f (some args) s).2 = (Except.error e, s') →
      execute F oc fuel name args s = (Except.error e, s')) := by
  have hX : ∀ (f : WASMFunction), M.ignoreErr (pushFrame f (some args)) s
      = (Except.ok (), (pushFrame f (some args) s).2) := fun _ => rfl
  refine ⟨?_, ?_, ?_⟩
  · intro h
    unfold execute
    simp only [M.bind_apply, M.get, h]
    rfl
  · intro f s' r h hrun
    unfold execute
    simp only [M.bind_apply, M.get, h, hX, hrun]
    cases r <;> rfl
  · intro f s' e h hrun
    unfold execute
    simp only [M.bind_apply, M.get, h, hX, hrun]

/-- C1 (witness): the unknown-export case at a concrete machine. -/
theorem c1_execute_witness :
    c1m.exports.lookup "g" = none
  ∧ execute zeroFloatOps true 3 "g" [] c1m
      = (Except.error (RtErr.trap "function not found"), c1m) :=
  ⟨rfl, (c1_execute zeroFloatOps true 3 "g" [] c1m).1 rfl⟩

end WasmJni

namespace WasmJni

/-- A module exporting `boom`: a no-parameter, no-result function whose
single-instruction body is a `drop` on an empty operand stack. -/
def c8fn : WASMFunction := ⟨[], [], ⟨4294967296⟩, []⟩

/-- The machine holding that module, with `drop` (0x1a) as pool word 0. -/
def c8m : Machine :=
  { baseMachine with exports := [("boom", c8fn)],
                     pool := ⟨fun i => if i = 0 then 26 else 0⟩ }

/-- C8 (counterexample): the claim says a trap resets the frame count and
stack/label sizes so a later invoke starts from an empty state, but after
`boom` traps the frame count is still 1 and a label is still open — no
reset happens anywhere on the trap path. -/
theorem c8_no_reset_after_trap :
    (execute zeroFloatOps true 3 "boom" [] c8m).1
        = Except.error (RtErr.trap "stack underflow")
  ∧ (execute zeroFloatOps true 3 "boom" [] c8m).2.count = 1
  ∧ (execute zeroFloatOps true 3 "boom" [] c8m).2.labelSize = 1
  ∧ c8m.count = 0 :=
  ⟨rfl, by decide, by decide, rfl⟩

/-- C8 (amended): a trap raised while running surfaces unchanged as the
error result of `execute`, but the post-trap state is exactly the state at
the moment of the trap: the frame count and the stack/label sizes are
*not* reset. -/
theorem c8_trap_surfaces_without_reset (F : FloatOps) (oc : Bool) (fuel : Nat)
    (name : String) (args : List Nat) (s s' : Machine) (f : WASMFunction) (e : RtErr)
    (h : s.exports.lookup name = some f)
    (hrun : run F oc fuel (pushFrame f (some args) s).2 = (Except.error e, s')) :
    execute F oc fuel name args s = (Except.error e, s')
  ∧ (execute F oc fuel name args s).2.count = s'.count
  ∧ (execute F oc fuel name args s).2.stackSize = s'.stackSize
  ∧ (execute F oc fuel name args s).2.labelSize = s'.labelSize := by
  have hX : M.ignoreErr (pushFrame f (some args)) s
      = (Except.ok (), (pushFrame f (some args) s).2) := rfl
  have hmain : execute F oc fuel name args s = (Except.error e, s') := by
    unfold execute
    simp only [M.bind_apply, M.get, h, hX, hrun]
  exact ⟨hmain, by rw [hmain], by rw [hmain], by rw [hmain]⟩

/-- C8 (witness): the trapping `boom` invocation at a concrete machine. -/
theorem c8_trap_surfaces_without_reset_witness :
    c8m.exports.lookup "boom" = some c8fn
  ∧ execute zeroFloatOps true 3 "boom" [] c8m
      = (Except.error (RtErr.trap "stack underflow"),
         (run zeroFloatOps true 3 (pushFrame c8fn (some []) c8m).2).2) :=
  ⟨rfl,
    (c8_trap_surfaces_without_reset zeroFloatOps true 3 "boom" [] c8m
      (run zeroFloatOps true 3 (pushFrame c8fn (some []) c8m).2).2 c8fn
      (RtErr.trap "stack underflow") rfl rfl).1⟩

end WasmJni
